import Mathlib

/-!
A Lean model of the core of the `quicktex-rs` texture library, together with
theorems checking its specification.  Each Rust item is translated into a Lean
definition of the same name (camel-cased); machine integers (`u32`, `usize`)
are modelled as `Nat` (the only operations the modelled code performs on them
are comparisons, division and multiplication that stay far from `2^32` on the
values the library handles), and fallible Rust functions returning `Result`
become `Except`.
-/

set_option maxHeartbeats 1000000

namespace Quicktex

/-! ## Dimensions (src/dimensions.rs) -/

/-- Error type of `src/dimensions.rs` (`DimensionError`).  The payload of
`Invalid` is the axis name; the `TryFromIntError` detail is dropped. -/
inductive DimensionError where
  | Dimensionality (n : Nat) : DimensionError
  | Invalid (axis : String) : DimensionError
deriving DecidableEq, Repr

/-- `Dimensions` from `src/dimensions.rs`: a 1-, 2- or 3-dimensional size.
The Rust type stores `NonZeroU32` axes; here the axes are plain `Nat` and
positivity is carried as a hypothesis (`dimsWf`) where a theorem needs it. -/
inductive Dimensions where
  | d1 : Nat → Dimensions
  | d2 : Nat → Nat → Dimensions
  | d3 : Nat → Nat → Nat → Dimensions
deriving DecidableEq, Repr

namespace Dimensions

/-- `Dimensions::len` -/
def len : Dimensions → Nat
  | d1 _ => 1
  | d2 _ _ => 2
  | d3 _ _ _ => 3

/-- `Dimensions::width` -/
def width : Dimensions → Nat
  | d1 w => w
  | d2 w _ => w
  | d3 w _ _ => w

/-- `Dimensions::height` -/
def height : Dimensions → Nat
  | d1 _ => 1
  | d2 _ h => h
  | d3 _ h _ => h

/-- `Dimensions::depth` -/
def depth : Dimensions → Nat
  | d3 _ _ d => d
  | _ => 1

/-- The axis list, as produced by `Dimensions`'s `IntoIterator` /
`Into<Vec<u32>>` implementations. -/
def toList : Dimensions → List Nat
  | d1 w => [w]
  | d2 w h => [w, h]
  | d3 w h d => [w, h, d]

/-- `Dimensions::product`: the product of all axes. -/
def product (d : Dimensions) : Nat := d.toList.prod

end Dimensions

/-- The positivity invariant the Rust `NonZeroU32` axes provide. -/
def dimsWf (d : Dimensions) : Prop := ∀ x ∈ d.toList, 1 ≤ x

instance (d : Dimensions) : Decidable (dimsWf d) := by
  unfold dimsWf; infer_instance

/-- The axis names used by `TryFrom<&[u32]> for Dimensions`
(`DIMENSION_NAMES`). -/
def dimensionNames : List String := ["width", "height", "depth"]

/-- `TryFrom<&[u32]> for Dimensions`:  zips the input with the three axis
names (silently truncating a longer input, as `std::iter::zip` does),
rejects a zero axis with `Invalid` and a remaining length other than
1, 2 or 3 with `Dimensionality`. -/
def tryFromList (value : List Nat) : Except DimensionError Dimensions :=
  let pairs := List.zip dimensionNames value
  match pairs.findSome? (fun p => if p.2 = 0 then some p.1 else none) with
  | some name => .error (.Invalid name)
  | none =>
    match pairs.map Prod.snd with
    | [w] => .ok (.d1 w)
    | [w, h] => .ok (.d2 w h)
    | [w, h, d] => .ok (.d3 w h d)
    | l => .error (.Dimensionality l.length)

/-- One halving step of `MipDimensionIterator::next`:
`u32::max(x / 2, 1)`. -/
def halveAxis (x : Nat) : Nat := max (x / 2) 1

/-- Elementwise halving of all axes (the `next` vector built by
`MipDimensionIterator::next`). -/
def halve : Dimensions → Dimensions
  | .d1 w => .d1 (halveAxis w)
  | .d2 w h => .d2 (halveAxis w) (halveAxis h)
  | .d3 w h d => .d3 (halveAxis w) (halveAxis h) (halveAxis d)

/-- The termination test of `MipDimensionIterator::next`:
`next.iter().all(|&x| x <= 1)`. -/
def mipsDone (d : Dimensions) : Bool := d.toList.all (· ≤ 1)

/-- A measure for the mip recursion: the sum of `max axis 1` over all axes. -/
def mipMeasure (d : Dimensions) : Nat := (d.toList.map (fun x => max x 1)).sum

/-- The full sequence produced by `Dimensions::mips` /
`MipDimensionIterator`: starting from `self`, halve every axis (floor,
never below 1) until every axis is `≤ 1`; the terminal element is
included. -/
def mipChain (d : Dimensions) : List Dimensions :=
  if mipsDone d then [d] else d :: mipChain (halve d)
termination_by mipMeasure d
decreasing_by
  rename_i h
  cases d <;>
    simp [mipsDone, Dimensions.toList, List.all, mipMeasure, halve, halveAxis] at h ⊢ <;>
    omega

/-- The rounding division of `Dimensions::blocks`:
`(size + (bsize - 1)) / bsize`. -/
def roundingDivide (size bsize : Nat) : Nat := (size + (bsize - 1)) / bsize

/-- `Itertools::zip_longest` followed by `.or_else(|| 1, || 1)`: pair up the
two axis lists, padding the shorter one with `1`. -/
def zipLongestPad1 : List Nat → List Nat → List (Nat × Nat)
  | [], ys => ys.map (fun y => (1, y))
  | x :: xs, [] => (x, 1) :: zipLongestPad1 xs []
  | x :: xs, y :: ys => (x, y) :: zipLongestPad1 xs ys

/-- `Dimensions::blocks`: elementwise rounding division of `self` by
`block`, missing axes of either side taken as 1.  The Rust code converts the
result vector back with `try_into().expect(..)`; that conversion only fails
when a computed axis is zero or the arity is out of range, which cannot
happen for positive inputs (see `blocks_toList`), so the model supplies a
junk value for it. -/
def blocks (d block : Dimensions) : Dimensions :=
  let resultVec := (zipLongestPad1 d.toList block.toList).map
    (fun b => roundingDivide b.1 b.2)
  (tryFromList resultVec).toOption.getD (.d1 1)

/-! ## Format (src/format.rs) -/

/-- `AlphaFormat` from `src/format.rs`. -/
inductive AlphaFormat where
  | Custom (alphaMask : Nat) : AlphaFormat
  | Straight (alphaMask : Nat) : AlphaFormat
  | Premultiplied (alphaMask : Nat) : AlphaFormat
  | Opaque : AlphaFormat
deriving DecidableEq, Repr

/-- `ColorFormat` from `src/format.rs`. -/
inductive ColorFormat where
  | RGB (rMask gMask bMask : Nat) (srgb : Bool) : ColorFormat
  | YUV (yMask uMask vMask : Nat) : ColorFormat
  | L (lMask : Nat) : ColorFormat
  | None : ColorFormat
deriving DecidableEq, Repr

/-- `Format` from `src/format.rs`. -/
inductive Format where
  | BC1 (srgb : Bool) : Format
  | BC2 (srgb : Bool) : Format
  | BC3 (srgb : Bool) : Format
  | BC4 (signed : Bool) : Format
  | BC5 (signed : Bool) : Format
  | Uncompressed (pitch : Nat) (colorFormat : ColorFormat)
      (alphaFormat : AlphaFormat) : Format
deriving DecidableEq, Repr

/-- `Format::size_for`: byte size of one surface of the given dimensions. -/
def sizeFor (f : Format) (dimensions : Dimensions) : Nat :=
  match f with
  | .BC1 _ | .BC4 _ => 8 * (blocks dimensions (.d2 4 4)).product
  | .BC2 _ | .BC3 _ | .BC5 _ => 16 * (blocks dimensions (.d2 4 4)).product
  | .Uncompressed pitch _ _ => pitch * dimensions.product

/-! ## Errors (src/error.rs, src/shape.rs) -/

/-- `ShapeError` from `src/shape.rs`. -/
inductive ShapeError where
  | NonUniform (what : String) : ShapeError
  | Nested (what : String) : ShapeError
  | InvalidMipChain : ShapeError
  | DuplicateFaces : ShapeError
  | Empty (what : String) : ShapeError
deriving DecidableEq, Repr

/-- `TextureError` from `src/error.rs`.  The `binrw` and `std::io` payloads
of the first two variants are reduced to plain messages; the modelled code
never constructs them. -/
inductive TextureError where
  | Header (msg : String) : TextureError
  | IOError (msg : String) : TextureError
  | Dimensions (e : DimensionError) : TextureError
  | Shape (e : ShapeError) : TextureError
  | Format (msg : String) : TextureError
  | Capability (msg : String) : TextureError
  | Other (msg : String) : TextureError
deriving DecidableEq, Repr

/-- Decidable equality of `Except` results (both payloads decidable). -/
instance {e a : Type} [DecidableEq e] [DecidableEq a] :
    DecidableEq (Except e a) := fun x y =>
  match x, y with
  | .ok u, .ok v => decidable_of_iff (u = v) (by simp)
  | .error u, .error v => decidable_of_iff (u = v) (by simp)
  | .ok _, .error _ => isFalse (by simp)
  | .error _, .ok _ => isFalse (by simp)

/-! ## PixelFormat (src/container/dds/pixel_format.rs) -/

/-- `FourCC`: a four byte format code. -/
structure FourCC where
  b0 : Nat
  b1 : Nat
  b2 : Nat
  b3 : Nat
deriving DecidableEq, Repr

/-- `FourCC::default()` (zero bytes). -/
def FourCC.default : FourCC := ⟨0, 0, 0, 0⟩

/-- `b"DX10"` -/
def fourCCDX10 : FourCC := ⟨0x44, 0x58, 0x31, 0x30⟩
/-- `b"DXT1"` -/
def fourCCDXT1 : FourCC := ⟨0x44, 0x58, 0x54, 0x31⟩
/-- `b"DXT3"` -/
def fourCCDXT3 : FourCC := ⟨0x44, 0x58, 0x54, 0x33⟩
/-- `b"DXT5"` -/
def fourCCDXT5 : FourCC := ⟨0x44, 0x58, 0x54, 0x35⟩
/-- `b"BC4U"` -/
def fourCCBC4U : FourCC := ⟨0x42, 0x43, 0x34, 0x55⟩
/-- `b"BC4S"` -/
def fourCCBC4S : FourCC := ⟨0x42, 0x43, 0x34, 0x53⟩
/-- `b"ATI2"` -/
def fourCCATI2 : FourCC := ⟨0x41, 0x54, 0x49, 0x32⟩
/-- `b"BC5U"` -/
def fourCCBC5U : FourCC := ⟨0x42, 0x43, 0x35, 0x55⟩
/-- `b"BC5S"` -/
def fourCCBC5S : FourCC := ⟨0x42, 0x43, 0x35, 0x53⟩

/-- The `PixelFormatFlags` bit set, one `Bool` per declared flag
(`AlphaPixels = 0x1`, `Alpha = 0x2`, `FourCC = 0x4`, `RGB = 0x40`,
`YUV = 0x200`, `Luminance = 0x20000`). -/
structure PixelFormatFlags where
  alphaPixels : Bool
  alpha : Bool
  fourCC : Bool
  rgb : Bool
  yuv : Bool
  luminance : Bool
deriving DecidableEq, Repr

/-- `BitFlags::default()`: the empty flag set. -/
def PixelFormatFlags.empty : PixelFormatFlags :=
  ⟨false, false, false, false, false, false⟩

/-- Bitwise union of two flag sets (`|`). -/
def PixelFormatFlags.union (a b : PixelFormatFlags) : PixelFormatFlags :=
  ⟨a.alphaPixels || b.alphaPixels, a.alpha || b.alpha, a.fourCC || b.fourCC,
    a.rgb || b.rgb, a.yuv || b.yuv, a.luminance || b.luminance⟩

/-- The `[u32; 4]` bitmask array of `PixelFormatIntermediate`
(`[color0, color1, color2, alpha]`). -/
structure Bitmasks where
  m0 : Nat
  m1 : Nat
  m2 : Nat
  m3 : Nat
deriving DecidableEq, Repr

/-- `PixelFormatIntermediate`: the on-disk legacy pixel format record (the
leading `size = 32` constant is implicit). -/
structure PixelFormatIntermediate where
  flags : PixelFormatFlags
  fourCC : FourCC
  bitCount : Nat
  bitmasks : Bitmasks
deriving DecidableEq, Repr

/-- `PixelFormat`: either a FourCC tag or an uncompressed descriptor. -/
inductive PixelFormat where
  | FourCC (cc : FourCC) : PixelFormat
  | Uncompressed (bitCount : Nat) (colorFormat : ColorFormat)
      (alphaFormat : AlphaFormat) : PixelFormat
deriving DecidableEq, Repr

/-- `PixelFormat::dx10()` -/
def PixelFormat.dx10 : PixelFormat := .FourCC fourCCDX10

/-- `PixelFormat::is_dx10` -/
def PixelFormat.isDX10 : PixelFormat → Bool
  | .FourCC cc => cc = fourCCDX10
  | _ => false

/-- `From<PixelFormatIntermediate> for PixelFormat` (decoding). -/
def pixelFormatOfIntermediate (value : PixelFormatIntermediate) : PixelFormat :=
  if value.flags.fourCC then .FourCC value.fourCC
  else
    let alphaFormat : AlphaFormat :=
      if value.flags.alpha then .Custom value.bitmasks.m3
      else if value.flags.alphaPixels then .Custom value.bitmasks.m3
      else .Opaque
    let colorFormat : ColorFormat :=
      if value.flags.rgb then
        .RGB value.bitmasks.m0 value.bitmasks.m1 value.bitmasks.m2 false
      else if value.flags.yuv then
        .YUV value.bitmasks.m0 value.bitmasks.m1 value.bitmasks.m2
      else if value.flags.luminance then .L value.bitmasks.m0
      else .None
    .Uncompressed value.bitCount colorFormat alphaFormat

/-- `From<PixelFormat> for PixelFormatIntermediate` (encoding).  Note that
the Rust `Uncompressed` arm binds the `bit_count` field under the name
`pitch` and then writes `bit_count: pitch * 8`, so the stored bit count is
eight times the in-memory one. -/
def intermediateOfPixelFormat (value : PixelFormat) : PixelFormatIntermediate :=
  match value with
  | .FourCC cc =>
    { flags := { PixelFormatFlags.empty with fourCC := true }
      fourCC := cc
      bitCount := 0
      bitmasks := ⟨0, 0, 0, 0⟩ }
  | .Uncompressed pitch colorFormat alphaFormat =>
    let colorPart : PixelFormatFlags × Nat × Nat × Nat :=
      match colorFormat with
      | .RGB rMask gMask bMask _ =>
        ({ PixelFormatFlags.empty with rgb := true }, rMask, gMask, bMask)
      | .YUV yMask uMask vMask =>
        ({ PixelFormatFlags.empty with yuv := true }, yMask, uMask, vMask)
      | .L lMask =>
        ({ PixelFormatFlags.empty with luminance := true }, lMask, 0, 0)
      | .None => (PixelFormatFlags.empty, 0, 0, 0)
    let alphaPart : PixelFormatFlags × Nat :=
      match alphaFormat with
      | .Custom alphaMask | .Straight alphaMask | .Premultiplied alphaMask =>
        ({ PixelFormatFlags.empty with alphaPixels := true }, alphaMask)
      | .Opaque => (PixelFormatFlags.empty, 0)
    { flags := colorPart.1.union alphaPart.1
      fourCC := FourCC.default
      bitCount := pitch * 8
      bitmasks := ⟨colorPart.2.1, colorPart.2.2.1, colorPart.2.2.2, alphaPart.2⟩ }

/-- `TryFrom<PixelFormat> for Format`.  The unknown-FourCC and bad-bit-count
messages are interpolated in Rust; the FourCC payload rendering is elided
here. -/
def pixelFormatToFormat (pf : PixelFormat) : Except TextureError Format :=
  match pf with
  | .FourCC cc =>
    if cc = fourCCDX10 then
      .error (.Format "Cannot convert DX10 PixelFormat")
    else if cc = fourCCDXT1 then .ok (.BC1 false)
    else if cc = fourCCDXT3 then .ok (.BC2 false)
    else if cc = fourCCDXT5 then .ok (.BC3 false)
    else if cc = fourCCBC4U then .ok (.BC4 false)
    else if cc = fourCCBC4S then .ok (.BC4 true)
    else if cc = fourCCATI2 || cc = fourCCBC5U then .ok (.BC5 false)
    else if cc = fourCCBC5S then .ok (.BC5 true)
    else .error (.Format "Unknown FourCC code")
  | .Uncompressed bitCount colorFormat alphaFormat =>
    if bitCount % 8 ≠ 0 then
      .error (.Format s!"BitCount {bitCount} is not divisible by 8")
    else
      .ok (.Uncompressed (bitCount / 8) colorFormat alphaFormat)

/-- `TryFrom<Format> for PixelFormat`.  Every constructor of `Format` is
covered, so the Rust catch-all error arm (marked
`#[allow(unreachable_patterns)]`) is dead and this conversion always
succeeds. -/
def formatToPixelFormat (format : Format) : Except TextureError PixelFormat :=
  match format with
  | .BC1 _ => .ok (.FourCC fourCCDXT1)
  | .BC2 _ => .ok (.FourCC fourCCDXT3)
  | .BC3 _ => .ok (.FourCC fourCCDXT5)
  | .BC4 false => .ok (.FourCC fourCCBC4U)
  | .BC4 true => .ok (.FourCC fourCCBC4S)
  | .BC5 false => .ok (.FourCC fourCCATI2)
  | .BC5 true => .ok (.FourCC fourCCBC5S)
  | .Uncompressed pitch colorFormat alphaFormat =>
    .ok (.Uncompressed (pitch * 8) colorFormat alphaFormat)

/-! ## DX10 header (src/container/dds/dx10_header.rs) -/

/-- `DXGIFormat`: the DXGI format code table.  The numeric discriminants
(0 to 115 and 130 to 132) are the on-disk `u32` encodings and are not needed
by any modelled operation, so only the constructor names are kept. -/
inductive DXGIFormat where
  | Unknown | R32G32B32A32 | R32G32B32A32Float | R32G32B32A32UInt
  | R32G32B32A32SInt | R32G32B32 | R32G32B32Float | R32G32B32UInt
  | R32G32B32SInt | R16G16B16A16 | R16G16B16A16Float | R16G16B16A16UNorm
  | R16G16B16A16UInt | R16G16B16A16SNorm | R16G16B16A16SInt | R32G32
  | R32G32Float | R32G32UInt | R32G32SInt | R32G8X24 | D32FloatS8X24UInt
  | R32FloatX8X24 | X32G8X24UInt | R10G10B10A2 | R10G10B10A2UNorm
  | R10G10B10A2UInt | R11G11B10Float | R8G8B8A8 | R8G8B8A8UNorm
  | R8G8B8A8UNormSRGB | R8G8B8A8UInt | R8G8B8A8SNorm | R8G8B8A8SInt
  | R16G16 | R16G16Float | R16G16UNorm | R16G16UInt | R16G16SNorm
  | R16G16SInt | R32 | D32Float | R32Float | R32UInt | R32SInt | R24G8
  | D24UNormS8UInt | R24UNormX8 | X24G8UInt | R8G8 | R8G8UNorm | R8G8UInt
  | R8G8SNorm | R8G8SInt | R16 | R16Float | D16UNorm | R16UNorm | R16UInt
  | R16SNorm | R16SInt | R8 | R8UNorm | R8UInt | R8SNorm | R8SInt | A8UNorm
  | R1UNorm | R9G9B9E5SharedExp | R8G8B8G8UNorm | G8R8G8B8UNorm | BC1
  | BC1UNorm | BC1UNormSRGB | BC2 | BC2UNorm | BC2UNormSRGB | BC3 | BC3UNorm
  | BC3UNormSRGB | BC4 | BC4UNorm | BC4SNorm | BC5 | BC5UNorm | BC5SNorm
  | B5G6R5UNorm | B5G5R5A1UNorm | B8G8R8A8UNorm | B8G8R8X8UNorm
  | R10G10B10XRBiasA2UNorm | B8G8R8A8 | B8G8R8A8UNormSRGB | B8G8R8X8
  | B8G8R8X8UNormSRGB | BC6H | BC6HUF16 | BC6HSF16 | BC7 | BC7UNorm
  | BC7UNormSRGB | AYUV | Y410 | Y416 | NV12 | P010 | P016 | YUV420Opaque
  | YUY2 | Y210 | Y216 | NV11 | AI44 | IA44 | P8 | A8P8 | B4G4R4A4UNorm
  | P208 | V208 | V408
deriving DecidableEq, Repr

/-- `TryInto<Format> for DXGIFormat` (`try_into`): the body unconditionally
returns a `Format` error — no DXGI code translates to a `Format`. -/
def dxgiTryIntoFormat (_ : DXGIFormat) : Except TextureError Format :=
  .error (.Format "DX10 header formats are not currently supported")

/-- `Dimensionality` (`Texture1D = 2`, `Texture2D = 3`, `Texture3D = 4`). -/
inductive Dimensionality where
  | Texture1D | Texture2D | Texture3D
deriving DecidableEq, Repr

/-- `AlphaMode` (`Unknown = 0` … `Custom = 4`). -/
inductive AlphaMode where
  | Unknown | Straight | Premultiplied | Opaque | Custom
deriving DecidableEq, Repr

/-- `DX10HeaderIntermediate`: the 20-byte DX10 sub-header record. -/
structure DX10HeaderIntermediate where
  dxgiFormat : DXGIFormat
  dimensionality : Dimensionality
  cube : Bool
  arraySize : Nat
  alphaMode : AlphaMode
deriving DecidableEq, Repr

/-- Modelled from the spec: `Dimensionality::as_dimensions` is called from
`TryFrom<DDSHeaderIntermediate> for DDSHeader` but is not among the source
files.  Per the specification the DX10 branch chooses the arity from
`dimensionality` (1D uses the width, 2D width and height, 3D width, height
and depth), validating the axes through the fallible `Dimensions`
constructor. -/
def asDimensions (dim : Dimensionality) (width height depth : Nat) :
    Except DimensionError Dimensions :=
  match dim with
  | .Texture1D => tryFromList [width]
  | .Texture2D => tryFromList [width, height]
  | .Texture3D => tryFromList [width, height, depth]

/-- Modelled from the spec: `From<Dimensions> for Dimensionality`
(used when writing a DX10 header) maps each arity to its tag. -/
def dimensionalityOf : Dimensions → Dimensionality
  | .d1 _ => .Texture1D
  | .d2 _ _ => .Texture2D
  | .d3 _ _ _ => .Texture3D

/-- Modelled from the spec: `dx10_header::try_into_format` is called by
`DDSHeader::format` but is not among the source files.  The spec records
that the DXGI table has no implemented translation to `Format`, so this
delegates to the always-failing `TryInto<Format> for DXGIFormat`
(the `alpha_mode` argument is unused). -/
def tryIntoFormat (dxgiFormat : DXGIFormat) (_ : AlphaMode) :
    Except TextureError Format :=
  dxgiTryIntoFormat dxgiFormat

/-! ## Shape: cube faces (src/shape.rs) and caps bits
(src/container/dds/mod.rs) -/

/-- `CubeFace`: the face index of one face of a cubemap, in canonical
declaration order. -/
inductive CubeFace where
  | PositiveX | NegativeX | PositiveY | NegativeY | PositiveZ | NegativeZ
deriving DecidableEq, Repr

/-- `CubeFace::VARIANTS`: all faces in declaration order. -/
def cubeFaceVariants : List CubeFace :=
  [.PositiveX, .NegativeX, .PositiveY, .NegativeY, .PositiveZ, .NegativeZ]

/-- `cubemap_order`: the position of a face in `CAPS_CUBEMAP_MAP` (the
canonical serialization order). -/
def cubemapOrder : CubeFace → Nat
  | .PositiveX => 0
  | .NegativeX => 1
  | .PositiveY => 2
  | .NegativeY => 3
  | .PositiveZ => 4
  | .NegativeZ => 5

/-- The `DDSFlags` bit set (`Caps = 0x1`, `Height = 0x2`, `Width = 0x4`,
`Pitch = 0x8`, `PixelFormat = 0x1000`, `MipmapCount = 0x20000`,
`LinearSize = 0x80000`, `Depth = 0x800000`). -/
structure DDSFlags where
  caps : Bool
  height : Bool
  width : Bool
  pitch : Bool
  pixelFormat : Bool
  mipmapCount : Bool
  linearSize : Bool
  depth : Bool
deriving DecidableEq, Repr

/-- The `Caps1` bit set (`Complex = 0x8`, `Mipmap = 0x400000`,
`Texture = 0x1000`). -/
structure Caps1 where
  complex : Bool
  mipmap : Bool
  texture : Bool
deriving DecidableEq, Repr

/-- The `Caps2` bit set (`Cubemap = 0x200`, the six `Cubemap*` face bits
`0x400` … `0x8000`, `Volume = 0x200000`). -/
structure Caps2 where
  cubemap : Bool
  cubemapPositiveX : Bool
  cubemapNegativeX : Bool
  cubemapPositiveY : Bool
  cubemapNegativeY : Bool
  cubemapPositiveZ : Bool
  cubemapNegativeZ : Bool
  volume : Bool
deriving DecidableEq, Repr

/-- `BitFlags::<Caps2>::default()`: the empty set. -/
def Caps2.empty : Caps2 :=
  ⟨false, false, false, false, false, false, false, false⟩

/-- `raw.caps2.iter().filter_map(Caps2::to_cubemap_face)`: the set bits in
ascending bit-value order, each mapped through `CAPS_CUBEMAP_MAP`
(`Cubemap` and `Volume` map to no face). -/
def caps2ToFaces (c : Caps2) : List CubeFace :=
  (if c.cubemapPositiveX then [CubeFace.PositiveX] else [])
    ++ (if c.cubemapNegativeX then [CubeFace.NegativeX] else [])
    ++ (if c.cubemapPositiveY then [CubeFace.PositiveY] else [])
    ++ (if c.cubemapNegativeY then [CubeFace.NegativeY] else [])
    ++ (if c.cubemapPositiveZ then [CubeFace.PositiveZ] else [])
    ++ (if c.cubemapNegativeZ then [CubeFace.NegativeZ] else [])

/-- `caps2 |= Caps2::from_cubemap_face(face)` -/
def caps2WithFace (c : Caps2) (face : CubeFace) : Caps2 :=
  match face with
  | .PositiveX => { c with cubemapPositiveX := true }
  | .NegativeX => { c with cubemapNegativeX := true }
  | .PositiveY => { c with cubemapPositiveY := true }
  | .NegativeY => { c with cubemapNegativeY := true }
  | .PositiveZ => { c with cubemapPositiveZ := true }
  | .NegativeZ => { c with cubemapNegativeZ := true }

/-! ## DDS header (src/container/dds/mod.rs) -/

/-- `DDSHeaderIntermediate`: the on-disk 124-byte DDS header record (plus
optional DX10 sub-header).  The magic `"DDS "` and the `size = 124`
constant are validated/emitted by `binrw` and carried implicitly.  The Rust
struct field `pixel_format` holds the already-decoded `PixelFormat` (binrw
maps it while reading); the model keeps the raw 32-byte record here and
applies `pixelFormatOfIntermediate` / `intermediateOfPixelFormat` exactly
at that mapping boundary, so that this structure is in bijection with the
non-pad bytes of the file. -/
structure DDSHeaderIntermediate where
  flags : DDSFlags
  height : Nat
  width : Nat
  pitchOrLinearSize : Nat
  depth : Nat
  mipmapCount : Nat
  pixelFormat : PixelFormatIntermediate
  caps1 : Caps1
  caps2 : Caps2
  caps3 : Nat
  caps4 : Nat
  dx10Header : Option DX10HeaderIntermediate
deriving DecidableEq, Repr

/-- `DDSHeader`: the normalized header enum. -/
inductive DDSHeader where
  | Legacy (dimensions : Dimensions) (mips : Option Nat)
      (faces : Option (List CubeFace)) (format : PixelFormat) : DDSHeader
  | DX10 (dimensions : Dimensions) (mips : Option Nat) (layers : Option Nat)
      (isCubemap : Bool) (dxgiFormat : DXGIFormat)
      (alphaMode : AlphaMode) : DDSHeader
deriving DecidableEq, Repr

/-- `TryFrom<DDSHeaderIntermediate> for DDSHeader`: normalize the on-disk
record. -/
def ddsParse (raw : DDSHeaderIntermediate) : Except TextureError DDSHeader :=
  -- "MipmapCount flag might not be set, so count a mipmapcount value
  -- greater than 1 as equivalent"
  let mips : Option Nat :=
    if raw.flags.mipmapCount || decide (raw.mipmapCount > 1) then
      some raw.mipmapCount
    else none
  match raw.dx10Header with
  | some dx10header => do
    let dimensions ←
      (asDimensions dx10header.dimensionality raw.width raw.height
        raw.depth).mapError TextureError.Dimensions
    let layers : Option Nat :=
      match dx10header.arraySize with
      | 0 => none
      | 1 => none
      | l => some l
    return .DX10 dimensions mips layers dx10header.cube dx10header.dxgiFormat
      dx10header.alphaMode
  | none => do
    let dimensions ←
      (if raw.flags.depth then tryFromList [raw.width, raw.height, raw.depth]
       else tryFromList [raw.width, raw.height]).mapError
        TextureError.Dimensions
    let faces : Option (List CubeFace) :=
      if raw.caps2.cubemap then some (caps2ToFaces raw.caps2) else none
    return .Legacy dimensions mips faces
      (pixelFormatOfIntermediate raw.pixelFormat)

/-- `ContainerHeader::dimensions` for `DDSHeader`. -/
def ddsDimensions : DDSHeader → Dimensions
  | .Legacy dimensions _ _ _ => dimensions
  | .DX10 dimensions _ _ _ _ _ => dimensions

/-- `ContainerHeader::layers` for `DDSHeader`. -/
def ddsLayers : DDSHeader → Option Nat
  | .DX10 _ _ (some layers) _ _ _ => some layers
  | _ => none

/-- `ContainerHeader::faces` for `DDSHeader`. -/
def ddsFaces : DDSHeader → Option (List CubeFace)
  | .Legacy _ _ faces _ => faces
  | .DX10 _ _ _ isCubemap _ _ =>
    if isCubemap then some cubeFaceVariants else none

/-- `ContainerHeader::mips` for `DDSHeader`. -/
def ddsMips : DDSHeader → Option Nat
  | .Legacy _ (some mips) _ _ => some mips
  | .DX10 _ (some mips) _ _ _ _ => some mips
  | _ => none

/-- `ContainerHeader::format` for `DDSHeader`. -/
def ddsFormat : DDSHeader → Except TextureError Format
  | .Legacy _ _ _ format => pixelFormatToFormat format
  | .DX10 _ _ _ _ dxgiFormat alphaMode => tryIntoFormat dxgiFormat alphaMode

/-- `TryFrom<DDSHeader> for DDSHeaderIntermediate`: re-derive the on-disk
record from the normalized header.  The flag and caps sets start from the
constant base sets and are extended branch by branch exactly as the Rust
`|=` updates do. -/
def ddsEncode (header : DDSHeader) : Except TextureError DDSHeaderIntermediate :=
  let flags0 : DDSFlags :=
    { caps := true, height := true, width := true, pitch := false
      pixelFormat := true, mipmapCount := false, linearSize := false
      depth := false }
  let caps10 : Caps1 := { complex := false, mipmap := false, texture := true }
  let format := ddsFormat header
  let pieces :
      Dimensions × Option Nat × PixelFormat × Option DX10HeaderIntermediate
        × Caps1 × Caps2 :=
    match header with
    | .Legacy dimensions mips faces fmt =>
      match faces with
      | some faces =>
        (dimensions, mips, fmt, none, { caps10 with complex := true },
          faces.foldl caps2WithFace { Caps2.empty with cubemap := true })
      | none => (dimensions, mips, fmt, none, caps10, Caps2.empty)
    | .DX10 dimensions mips layers isCubemap dxgiFormat alphaMode =>
      let caps1a :=
        if isCubemap then { caps10 with complex := true } else caps10
      let caps2a :=
        if isCubemap then
          cubeFaceVariants.foldl caps2WithFace
            { Caps2.empty with cubemap := true }
        else Caps2.empty
      let caps1b :=
        if layers.isSome then { caps1a with complex := true } else caps1a
      let dx10 : Option DX10HeaderIntermediate :=
        some { dxgiFormat := dxgiFormat
               dimensionality := dimensionalityOf dimensions
               cube := isCubemap
               arraySize := layers.getD 1
               alphaMode := alphaMode }
      (dimensions, mips, PixelFormat.dx10, dx10, caps1b, caps2a)
  match pieces with
  | (dimensions, mips, pixelFormatVal, dx10Header, caps1a, caps2a) => do
    let pitchPair : DDSFlags × Nat ←
      match format with
      | .ok (.Uncompressed pitch _ _) =>
        .ok ({ flags0 with pitch := true }, pitch * dimensions.width)
      | .ok f =>
        .ok ({ flags0 with linearSize := true }, sizeFor f dimensions)
      -- unknown format: leave the size as 0 with neither flag
      | .error (.Format _) => .ok (flags0, 0)
      -- unexpected error: rethrow
      | .error e => .error e
    let depth : Nat :=
      match dimensions with
      | .d3 _ _ dep => dep
      | _ => 0
    let mipTriple : DDSFlags × Caps1 × Nat :=
      match mips with
      | none => (pitchPair.1, caps1a, 0)
      | some m =>
        ({ pitchPair.1 with mipmapCount := true },
          { caps1a with complex := true }, m)
    return { flags := mipTriple.1
             height := dimensions.height
             width := dimensions.width
             pitchOrLinearSize := pitchPair.2
             depth := depth
             mipmapCount := mipTriple.2.2
             pixelFormat := intermediateOfPixelFormat pixelFormatVal
             caps1 := mipTriple.2.1
             caps2 := caps2a
             caps3 := 0
             caps4 := 0
             dx10Header := dx10Header }

/-! ## The shape tree (src/shape.rs) -/

/-- The `Dimensioned` trait of `src/dimensions.rs`. -/
class Dimensioned (S : Type) where
  dimensions : S → Dimensions

/-- `TextureIndex` from `src/shape.rs`.  The Rust `usize` indices are
`Nat`. -/
inductive TextureIndex where
  | Face (f : CubeFace) : TextureIndex
  | Mip (m : Nat) : TextureIndex
  | Layer (l : Nat) : TextureIndex
deriving DecidableEq, Repr

/-- `TextureShapeNode<S>`: one node of the texture shape tree.  The Rust
`CubeMap` variant stores a `HashMap<CubeFace, Self>`; the model uses an
association list whose order stands in for the map's (unspecified)
iteration order, with key uniqueness carried by the `Wf` invariant. -/
inductive TextureShapeNode (S : Type) where
  | Array (ls : List (TextureShapeNode S)) : TextureShapeNode S
  | CubeMap (fs : List (CubeFace × TextureShapeNode S)) : TextureShapeNode S
  | MipMap (ms : List (TextureShapeNode S)) : TextureShapeNode S
  | Surface (s : S) : TextureShapeNode S

namespace TextureShapeNode

variable {S : Type}

/-- `Dimensioned::dimensions` for `TextureShapeNode`: a surface's own
dimensions, otherwise `first_inner().dimensions()`.  `first_inner` panics
on an empty `Array`/`CubeMap`/`MipMap` (such nodes violate the constructor
invariants); the model returns a junk value there. -/
def dims [Dimensioned S] : TextureShapeNode S → Dimensions
  | .Surface s => Dimensioned.dimensions s
  | .Array ls =>
    match ls with
    | c :: _ => dims c
    | [] => .d1 1
  | .CubeMap fs =>
    match fs with
    | (_, c) :: _ => dims c
    | [] => .d1 1
  | .MipMap ms =>
    match ms with
    | c :: _ => dims c
    | [] => .d1 1

/-- `TextureShape::mips` for `TextureShapeNode`: the mip count found by
descending through the first child (`none` on an empty compound, where the
Rust code would panic in `first_inner`). -/
def mips : TextureShapeNode S → Option Nat
  | .Surface _ => none
  | .MipMap ms => some ms.length
  | .Array ls =>
    match ls with
    | c :: _ => mips c
    | [] => none
  | .CubeMap fs =>
    match fs with
    | (_, c) :: _ => mips c
    | [] => none

/-- `TextureShape::layers` for `TextureShapeNode`. -/
def layers : TextureShapeNode S → Option Nat
  | .Surface _ => none
  | .Array ls => some ls.length
  | .MipMap ms =>
    match ms with
    | c :: _ => layers c
    | [] => none
  | .CubeMap fs =>
    match fs with
    | (_, c) :: _ => layers c
    | [] => none

/-- `TextureShape::faces` for `TextureShapeNode`: the key list of the cube
node found by descending through the first child. -/
def faces : TextureShapeNode S → Option (List CubeFace)
  | .Surface _ => none
  | .CubeMap fs => some (fs.map Prod.fst)
  | .Array ls =>
    match ls with
    | c :: _ => faces c
    | [] => none
  | .MipMap ms =>
    match ms with
    | c :: _ => faces c
    | [] => none

/-- `HashMap::get(&f)` on the association list. -/
def lookupFace (f : CubeFace) :
    List (CubeFace × TextureShapeNode S) → Option (TextureShapeNode S)
  | [] => none
  | (g, c) :: rest => if g = f then some c else lookupFace f rest

mutual
/-- `TextureShape::get` for `TextureShapeNode`.  In the `MipMap`/`Mip` and
`Array`/`Layer` arms the Rust code takes `mips.get(m)?.as_slice()`, which
is always a one-element slice, so the `[single]` (collapsing) arm is the
only live one and the `[..]` arm is dead; the `assert_eq!` in that arm is
modelled separately by `getPanics`. -/
def get [Dimensioned S] :
    TextureShapeNode S → TextureIndex → Option (TextureShapeNode S)
  | .Surface _, _ => none
  | .CubeMap fs, .Face f => lookupFace f fs
  | .CubeMap fs, index => (getPairs fs index).map .CubeMap
  | .MipMap ms, .Mip m => ms.get? m
  | .MipMap ms, index => (getEach ms index).map .MipMap
  | .Array ls, .Layer l => ls.get? l
  | .Array ls, index => (getEach ls index).map .Array

/-- The `Option`-collecting traversal of plain children
(`iter().map(|t| t.get(index)).collect::<Option<_>>()`). -/
def getEach [Dimensioned S] :
    List (TextureShapeNode S) → TextureIndex → Option (List (TextureShapeNode S))
  | [], _ => some []
  | c :: rest, index => do
    let u ← get c index
    let us ← getEach rest index
    return u :: us

/-- The `Option`-collecting traversal of keyed children
(`faces.iter().map(|(i, f)| Some((*i, f.get(index)?))).collect`). -/
def getPairs [Dimensioned S] :
    List (CubeFace × TextureShapeNode S) → TextureIndex →
    Option (List (CubeFace × TextureShapeNode S))
  | [], _ => some []
  | (f, c) :: rest, index => do
    let u ← get c index
    let us ← getPairs rest index
    return (f, u) :: us
end

mutual
/-- Does evaluating `get` reach a failing `assert_eq!`?  The two assertions
are `assert_eq!(single.mips(), None)` when selecting a mip and
`assert_eq!(single.layers(), None)` when selecting a layer.  This
over-approximates the Rust evaluation order (the lazy `collect` may stop
before a later child is visited), so `getPanics … = false` implies the Rust
code never hits a failing assertion. -/
def getPanics [Dimensioned S] : TextureShapeNode S → TextureIndex → Bool
  | .Surface _, _ => false
  | .CubeMap _, .Face _ => false
  | .CubeMap fs, index => anyPanicsPairs fs index
  | .MipMap ms, .Mip m =>
    match ms.get? m with
    | some single => decide (mips single ≠ none)
    | none => false
  | .MipMap ms, index => anyPanics ms index
  | .Array ls, .Layer l =>
    match ls.get? l with
    | some single => decide (layers single ≠ none)
    | none => false
  | .Array ls, index => anyPanics ls index

/-- Any assertion failure among plain children. -/
def anyPanics [Dimensioned S] :
    List (TextureShapeNode S) → TextureIndex → Bool
  | [], _ => false
  | c :: rest, index => getPanics c index || anyPanics rest index

/-- Any assertion failure among keyed children. -/
def anyPanicsPairs [Dimensioned S] :
    List (CubeFace × TextureShapeNode S) → TextureIndex → Bool
  | [], _ => false
  | (_, c) :: rest, index => getPanics c index || anyPanicsPairs rest index
end

/-- `Itertools::all_equal` (true on an empty or singleton sequence). -/
def allEqual {T : Type} [DecidableEq T] : List T → Bool
  | [] => true
  | x :: xs => xs.all (fun y => decide (y = x))

/-- `TextureShape::try_from_mips` for `TextureShapeNode`: checks, in the
source's order, emptiness, that the children's dimensions equal the *whole*
sequence `dimensions.mips()` (`Iterator::eq` compares both iterators to
exhaustion), uniformity of layers and faces, and mip nesting. -/
def tryFromMips [Dimensioned S] (ms : List (TextureShapeNode S)) :
    Except ShapeError (TextureShapeNode S) :=
  match ms with
  | [] => .error (.Empty "mipmap")
  | c0 :: _ =>
    let dimensions := dims c0
    if ms.map dims ≠ mipChain dimensions then .error .InvalidMipChain
    else if !allEqual (ms.map layers) then .error (.NonUniform "layers")
    else if !allEqual (ms.map faces) then .error (.NonUniform "faces")
    else if ms.any (fun c => (mips c).isSome) then .error (.Nested "mipmap")
    else .ok (.MipMap ms)

/-- `TextureShape::try_from_faces` for `TextureShapeNode`: duplicate keys
are detected while inserting; then emptiness, uniformity of dimensions,
mips and layers, and cube nesting are checked in the source's order. -/
def tryFromFaces [Dimensioned S] (fs : List (CubeFace × TextureShapeNode S)) :
    Except ShapeError (TextureShapeNode S) :=
  if ¬ (fs.map Prod.fst).Nodup then .error .DuplicateFaces
  else if fs.length = 0 then .error (.Empty "cube")
  else if !allEqual (fs.map (fun p => dims p.2)) then
    .error (.NonUniform "dimensions")
  else if !allEqual (fs.map (fun p => mips p.2)) then
    .error (.NonUniform "mips")
  else if !allEqual (fs.map (fun p => layers p.2)) then
    .error (.NonUniform "layers")
  else if fs.any (fun p => (faces p.2).isSome) then .error (.Nested "cube")
  else .ok (.CubeMap fs)

/-- `TextureShape::try_from_layers` for `TextureShapeNode`. -/
def tryFromLayers [Dimensioned S] (ls : List (TextureShapeNode S)) :
    Except ShapeError (TextureShapeNode S) :=
  if ls.length = 0 then .error (.Empty "array")
  else if !allEqual (ls.map dims) then .error (.NonUniform "dimensions")
  else if !allEqual (ls.map mips) then .error (.NonUniform "mips")
  else if !allEqual (ls.map faces) then .error (.NonUniform "faces")
  else if ls.any (fun c => (layers c).isSome) then .error (.Nested "array")
  else .ok (.Array ls)

/-- The invariants established by the three constructors (and by reading a
texture): every compound node is non-empty, no kind nests inside itself,
cube keys are unique, siblings are uniform in the attributes the
constructors check, and a mip node's children dimensions are exactly the
mip chain of the largest mip. -/
inductive Wf [Dimensioned S] : TextureShapeNode S → Prop where
  | Surface (s : S) : Wf (.Surface s)
  | MipMap {ms : List (TextureShapeNode S)}
      (hne : ms ≠ [])
      (hnomips : ∀ c ∈ ms, mips c = none)
      (hlayers : ∀ a ∈ ms, ∀ b ∈ ms, layers a = layers b)
      (hfaces : ∀ a ∈ ms, ∀ b ∈ ms, faces a = faces b)
      (hchain : ms.map dims = mipChain (dims (.MipMap ms)))
      (hwf : ∀ c ∈ ms, Wf c) : Wf (.MipMap ms)
  | CubeMap {fs : List (CubeFace × TextureShapeNode S)}
      (hne : fs ≠ [])
      (hnodup : (fs.map Prod.fst).Nodup)
      (hnofaces : ∀ p ∈ fs, faces p.2 = none)
      (hdims : ∀ a ∈ fs, ∀ b ∈ fs, dims a.2 = dims b.2)
      (hmips : ∀ a ∈ fs, ∀ b ∈ fs, mips a.2 = mips b.2)
      (hlayers : ∀ a ∈ fs, ∀ b ∈ fs, layers a.2 = layers b.2)
      (hwf : ∀ p ∈ fs, Wf p.2) : Wf (.CubeMap fs)
  | Array {ls : List (TextureShapeNode S)}
      (hne : ls ≠ [])
      (hnolayers : ∀ c ∈ ls, layers c = none)
      (hdims : ∀ a ∈ ls, ∀ b ∈ ls, dims a = dims b)
      (hmips : ∀ a ∈ ls, ∀ b ∈ ls, mips a = mips b)
      (hfaces : ∀ a ∈ ls, ∀ b ∈ ls, faces a = faces b)
      (hwf : ∀ c ∈ ls, Wf c) : Wf (.Array ls)

end TextureShapeNode

/-! ## Texture and header construction (src/container/dds/mod.rs;
`Texture` itself is not among the source files) -/

/-- Modelled from the spec: the `Surface` payload — a `Dimensions` plus a
shared byte buffer.  The `texture.rs` in the sources is an abandoned draft;
the `Texture`/`Surfaces` types used by the DDS module are absent, and the
spec defines a surface as `(dims, bytes)`. -/
structure Surface where
  dimensions : Dimensions
  buffer : List Nat
deriving DecidableEq, Repr

instance : Dimensioned Surface := ⟨Surface.dimensions⟩

/-- Modelled from the spec: `Texture = (format, surfaces : ShapeTree<Surface>)`,
with the shape accessors delegating to the surfaces tree. -/
structure Texture where
  format : Format
  surfaces : TextureShapeNode Surface

/-- Modelled from the spec: `texture.dimensions()`. -/
def Texture.dimensions (t : Texture) : Dimensions := t.surfaces.dims
/-- Modelled from the spec: `texture.mips()`. -/
def Texture.mips (t : Texture) : Option Nat := t.surfaces.mips
/-- Modelled from the spec: `texture.layers()`. -/
def Texture.layers (t : Texture) : Option Nat := t.surfaces.layers
/-- Modelled from the spec: `texture.faces()`. -/
def Texture.faces (t : Texture) : Option (List CubeFace) := t.surfaces.faces

/-- `DDSHeaderMode` -/
inductive DDSHeaderMode where
  | PreferLegacy | ForceLegacy | ForceDX10
deriving DecidableEq, Repr

/-- `DDSHeader::for_texture_legacy`. -/
def forTextureLegacy (texture : Texture) : Except TextureError DDSHeader :=
  if texture.layers.isSome then
    .error (.Capability "Texture arrays are not supported by legacy DDS headers")
  else do
    let format ← formatToPixelFormat texture.format
    return .Legacy texture.dimensions texture.mips texture.faces format

/-- The type of `dx10_header::try_from_format` (`Format` to a DXGI code and
alpha mode).  The function is called by `DDSHeader::for_texture_dx10` but is
absent from the source files, so the construction functions below take it as
a parameter and the theorems quantify over it. -/
def TryFromFormat : Type := Format → Except TextureError (DXGIFormat × AlphaMode)

/-- `DDSHeader::for_texture_dx10`, parameterized by the missing
`try_from_format`. -/
def forTextureDX10 (tff : TryFromFormat) (texture : Texture) :
    Except TextureError DDSHeader := do
  let isCubemap ←
    match texture.faces with
    | none => Except.ok false
    | some faces =>
      if faces.length = 6 then Except.ok true
      else
        .error
          (.Capability "Incomplete cubemaps are not supported by DX10 DDS headers")
  let pair ← tff texture.format
  return .DX10 texture.dimensions texture.mips texture.layers isCubemap
    pair.1 pair.2

/-- `ContainerHeader::for_texture_args` for `DDSHeader`: mode dispatch
between the legacy and DX10 attempts. -/
def forTextureArgs (tff : TryFromFormat) (texture : Texture)
    (mode : DDSHeaderMode) : Except TextureError DDSHeader :=
  match mode with
  | .ForceDX10 => forTextureDX10 tff texture
  | _ =>
    match forTextureLegacy texture with
    | .ok header => .ok header
    -- cant try again, return
    | .error e =>
      if mode = .ForceLegacy then .error e
      else
        match e with
        -- ignore capability and format errors, will retry with DX10
        | .Capability _ | .Format _ => forTextureDX10 tff texture
        -- other errors should be rethrown
        | e => .error e

/-- A concrete on-disk header record: a legacy 4×4 DXT1 texture whose
`MipmapCount` flag is set with `mipmap_count = 0` (exercises the
flag-set/zero-count corner of the parser). -/
def c3Input : DDSHeaderIntermediate :=
  { flags := { caps := true, height := true, width := true, pitch := false
               pixelFormat := true, mipmapCount := true, linearSize := false
               depth := false }
    height := 4
    width := 4
    pitchOrLinearSize := 0
    depth := 0
    mipmapCount := 0
    pixelFormat := { flags := { PixelFormatFlags.empty with fourCC := true }
                     fourCC := fourCCDXT1
                     bitCount := 0
                     bitmasks := ⟨0, 0, 0, 0⟩ }
    caps1 := { complex := false, mipmap := false, texture := true }
    caps2 := Caps2.empty
    caps3 := 0
    caps4 := 0
    dx10Header := none }

/-- A concrete on-disk header record: a plain legacy 4×4 DXT1 texture with
no mips and `pitch_or_linear_size = 0` (exercises the read→write
round trip). -/
def c4Input : DDSHeaderIntermediate :=
  { flags := { caps := true, height := true, width := true, pitch := false
               pixelFormat := true, mipmapCount := false, linearSize := false
               depth := false }
    height := 4
    width := 4
    pitchOrLinearSize := 0
    depth := 0
    mipmapCount := 0
    pixelFormat := { flags := { PixelFormatFlags.empty with fourCC := true }
                     fourCC := fourCCDXT1
                     bitCount := 0
                     bitmasks := ⟨0, 0, 0, 0⟩ }
    caps1 := { complex := false, mipmap := false, texture := true }
    caps2 := Caps2.empty
    caps3 := 0
    caps4 := 0
    dx10Header := none }

/-- A `Dimensioned` instance for bare `Dimensions` payloads, used to build
concrete shape trees in examples. -/
instance : Dimensioned Dimensions := ⟨id⟩

/-- A concrete stand-in for the absent `try_from_format` used to
instantiate the header-construction theorems. -/
def c7Tff : TryFromFormat := fun _ => .error (.Format "no DXGI translation")

/-- A concrete texture with one array layer (exercises the legacy-header
`Capability` failure). -/
def c7ArrayTexture : Texture :=
  { format := .BC1 false
    surfaces := .Array [.Surface ⟨.d2 4 4, []⟩] }

/-- A concrete well-formed shape tree (a two-face cubemap of 4×4
surfaces), used to instantiate the slicing theorems. -/
def c9Tree : TextureShapeNode Dimensions :=
  .CubeMap [(.PositiveX, .Surface (.d2 4 4)), (.NegativeX, .Surface (.d2 4 4))]

/-- A concrete two-element mip candidate list whose dimensions form a
strict prefix of the full mip chain of 4×4 (the chain continues to 1×1). -/
def c1Children : List (TextureShapeNode Dimensions) :=
  [.Surface (.d2 4 4), .Surface (.d2 2 2)]

/-- The header that `c4Input` parses to. -/
def c4Header : DDSHeader :=
  .Legacy (.d2 4 4) none none (.FourCC fourCCDXT1)

/-- The record `c4Header` re-encodes to (the `LinearSize` flag and the
linear size 8 are recomputed from the DXT1 format). -/
def c4Reencoded : DDSHeaderIntermediate :=
  { flags := { caps := true, height := true, width := true, pitch := false
               pixelFormat := true, mipmapCount := false, linearSize := true
               depth := false }
    height := 4
    width := 4
    pitchOrLinearSize := 8
    depth := 0
    mipmapCount := 0
    pixelFormat := { flags := { PixelFormatFlags.empty with fourCC := true }
                     fourCC := fourCCDXT1
                     bitCount := 0
                     bitmasks := ⟨0, 0, 0, 0⟩ }
    caps1 := { complex := false, mipmap := false, texture := true }
    caps2 := Caps2.empty
    caps3 := 0
    caps4 := 0
    dx10Header := none }

/-! ## Theorems -/

theorem blocks_d2_4_4_product (d : Dimensions) (h : dimsWf d) :
    (blocks d (.d2 4 4)).product =
      ((d.width + 3) / 4) * (((d.height + 3) / 4) * d.depth) := by
  cases d with
  | d1 w =>
    have hw : 1 ≤ w := by simpa [dimsWf, Dimensions.toList] using h
    have hw4 : ¬ ((w + 3) / 4 = 0) := by omega
    simp [blocks, Dimensions.toList, zipLongestPad1, roundingDivide,
      tryFromList, dimensionNames, List.findSome?, hw4, Dimensions.product,
      Dimensions.width, Dimensions.height, Dimensions.depth, Except.toOption]
  | d2 w h' =>
    have hw : 1 ≤ w ∧ 1 ≤ h' := by simpa [dimsWf, Dimensions.toList] using h
    have hw4 : ¬ ((w + 3) / 4 = 0) := by omega
    have hh4 : ¬ ((h' + 3) / 4 = 0) := by omega
    simp [blocks, Dimensions.toList, zipLongestPad1, roundingDivide,
      tryFromList, dimensionNames, List.findSome?, hw4, hh4,
      Dimensions.product, Dimensions.width, Dimensions.height,
      Dimensions.depth, Except.toOption]
  | d3 w h' dep =>
    have hw : 1 ≤ w ∧ 1 ≤ h' ∧ 1 ≤ dep := by
      simpa [dimsWf, Dimensions.toList] using h
    have hw4 : ¬ ((w + 3) / 4 = 0) := by omega
    have hh4 : ¬ ((h' + 3) / 4 = 0) := by omega
    have hd1 : ¬ (dep = 0) := by omega
    simp [blocks, Dimensions.toList, zipLongestPad1, roundingDivide,
      tryFromList, dimensionNames, List.findSome?, hw4, hh4, hd1,
      Dimensions.product, Dimensions.width, Dimensions.height,
      Dimensions.depth, Except.toOption]

/-- C6: for every format and every dimension value (absent axes defaulting
to 1, every axis positive as `NonZeroU32` guarantees), `size_for` returns
`8·⌈w/4⌉·⌈h/4⌉·d` bytes for BC1 and BC4, `16·⌈w/4⌉·⌈h/4⌉·d` bytes for BC2,
BC3 and BC5, and `pitch·w·h·d` bytes for an uncompressed format; the block
rounding is ceiling division with missing block axes taken as 1. -/
theorem c6_size_for (f : Format) (d : Dimensions) (h : dimsWf d) :
    sizeFor f d =
      match f with
      | .BC1 _ | .BC4 _ =>
        8 * (d.width ⌈/⌉ 4) * (d.height ⌈/⌉ 4) * d.depth
      | .BC2 _ | .BC3 _ | .BC5 _ =>
        16 * (d.width ⌈/⌉ 4) * (d.height ⌈/⌉ 4) * d.depth
      | .Uncompressed pitch _ _ => pitch * d.width * d.height * d.depth := by
  have ew : d.width ⌈/⌉ 4 = (d.width + 3) / 4 := by
    rw [Nat.ceilDiv_eq_add_pred_div]; omega
  have eh : d.height ⌈/⌉ 4 = (d.height + 3) / 4 := by
    rw [Nat.ceilDiv_eq_add_pred_div]; omega
  have eprod : d.product = d.width * (d.height * d.depth) := by
    cases d <;> simp [Dimensions.product, Dimensions.toList, Dimensions.width,
      Dimensions.height, Dimensions.depth]
  cases f <;>
    simp only [sizeFor, ew, eh, eprod, blocks_d2_4_4_product d h] <;> ring

theorem mipChain_ne_nil (d : Dimensions) : mipChain d ≠ [] := by
  rw [mipChain]; split <;> simp

theorem mipChain_head (d : Dimensions) : (mipChain d).head? = some d := by
  rw [mipChain]; split <;> simp

theorem dimsWf_halve (d : Dimensions) : dimsWf (halve d) := by
  cases d <;> simp [dimsWf, halve, halveAxis, Dimensions.toList]

theorem toList_halve (d : Dimensions) :
    (halve d).toList = d.toList.map halveAxis := by
  cases d <;> simp [halve, Dimensions.toList]

theorem mipChain_chain'_halve (d : Dimensions) :
    (mipChain d).Chain' (fun a b => b = halve a) := by
  induction d using mipChain.induct with
  | case1 d hdone => rw [mipChain]; simp [hdone]
  | case2 d hdone ih =>
    rw [mipChain]
    simp only [hdone, if_false, Bool.false_eq_true]
    refine List.chain'_cons'.2 ⟨fun y hy => ?_, ih⟩
    rw [mipChain_head] at hy
    simp at hy
    exact hy.symm

theorem mipChain_getLast_ones (d : Dimensions) (h : dimsWf d) :
    ∀ t, (mipChain d).getLast? = some t → ∀ x ∈ t.toList, x = 1 := by
  induction d using mipChain.induct with
  | case1 d hdone =>
    intro t ht x hx
    rw [mipChain] at ht
    simp [hdone] at ht
    subst ht
    simp [mipsDone, List.all_eq_true] at hdone
    have h1 := hdone x hx
    have h2 := h x hx
    omega
  | case2 d hdone ih =>
    intro t ht x hx
    rw [mipChain] at ht
    simp only [hdone, if_false, Bool.false_eq_true] at ht
    obtain ⟨b, L, hbl⟩ := List.exists_cons_of_ne_nil (mipChain_ne_nil (halve d))
    rw [hbl, List.getLast?_cons_cons] at ht
    exact ih (dimsWf_halve d) t (by rw [hbl]; exact ht) x hx

theorem one_le_prodList (l : List Nat) (h : ∀ x ∈ l, 1 ≤ x) : 1 ≤ l.prod := by
  induction l with
  | nil => simp
  | cons x xs ih =>
    simp only [List.prod_cons]
    have hx := h x (by simp)
    have hxs := ih (fun y hy => h y (by simp [hy]))
    calc 1 = 1 * 1 := by omega
    _ ≤ x * xs.prod := Nat.mul_le_mul hx hxs

theorem prod_map_halve_le (l : List Nat) (h : ∀ x ∈ l, 1 ≤ x) :
    (l.map halveAxis).prod ≤ l.prod := by
  induction l with
  | nil => simp
  | cons x xs ih =>
    simp only [List.map_cons, List.prod_cons]
    have hx : halveAxis x ≤ x := by
      have := h x (by simp); simp [halveAxis]; omega
    exact Nat.mul_le_mul hx (ih (fun y hy => h y (by simp [hy])))

theorem prod_map_halve_lt (l : List Nat) (h : ∀ x ∈ l, 1 ≤ x)
    (hw : ∃ x ∈ l, 2 ≤ x) : (l.map halveAxis).prod < l.prod := by
  induction l with
  | nil => simp at hw
  | cons x xs ih =>
    simp only [List.map_cons, List.prod_cons]
    have hx1 : 1 ≤ x := h x (by simp)
    have hxs1 : ∀ y ∈ xs, 1 ≤ y := fun y hy => h y (by simp [hy])
    rcases hw with ⟨y, hy, hy2⟩
    rcases List.mem_cons.1 hy with rfl | hmem
    · have hlt : halveAxis y < y := by simp [halveAxis]; omega
      exact Nat.mul_lt_mul_of_lt_of_le hlt (prod_map_halve_le xs hxs1)
        (one_le_prodList xs hxs1)
    · have hle : halveAxis x ≤ x := by simp [halveAxis]; omega
      have hlt := ih hxs1 ⟨y, hmem, hy2⟩
      calc halveAxis x * (xs.map halveAxis).prod
          ≤ x * (xs.map halveAxis).prod :=
            Nat.mul_le_mul hle (Nat.le_refl _)
        _ < x * xs.prod := by
            have := one_le_prodList xs hxs1
            exact Nat.mul_lt_mul_of_le_of_lt (Nat.le_refl x) hlt (by omega)

theorem product_halve_lt (d : Dimensions) (hwf : dimsWf d)
    (h : mipsDone d = false) : (halve d).product < d.product := by
  have hx : ∃ x ∈ d.toList, 2 ≤ x := by
    simp [mipsDone, List.all_eq_true] at h
    rcases h with ⟨x, hx, hx2⟩
    exact ⟨x, hx, by omega⟩
  rw [Dimensions.product, Dimensions.product, toList_halve]
  exact prod_map_halve_lt d.toList hwf hx

theorem mipChain_chain'_product (d : Dimensions) (h : dimsWf d) :
    (mipChain d).Chain' (fun a b => b.product < a.product) := by
  induction d using mipChain.induct with
  | case1 d hdone => rw [mipChain]; simp [hdone]
  | case2 d hdone ih =>
    rw [mipChain]
    simp only [hdone, if_false, Bool.false_eq_true]
    refine List.chain'_cons'.2 ⟨fun y hy => ?_, ih (dimsWf_halve d)⟩
    rw [mipChain_head] at hy
    simp at hy
    subst hy
    exact product_halve_lt d h (by simpa using hdone)

theorem foldrMax_map_halve (l : List Nat) :
    (l.map halveAxis).foldr max 1 = halveAxis (l.foldr max 1) := by
  induction l with
  | nil => simp [halveAxis]
  | cons x xs ih =>
    simp only [List.map_cons, List.foldr_cons, ih]
    simp [halveAxis]
    omega

theorem le_foldrMax (l : List Nat) (x : Nat) (hx : x ∈ l) :
    x ≤ l.foldr max 1 := by
  induction l with
  | nil => simp at hx
  | cons y ys ih =>
    rcases List.mem_cons.1 hx with rfl | hmem
    · simp
    · simp only [List.foldr_cons]
      exact le_trans (ih hmem) (le_max_right _ _)

theorem foldrMax_mem_or_one (l : List Nat) :
    l.foldr max 1 = 1 ∨ l.foldr max 1 ∈ l := by
  induction l with
  | nil => simp
  | cons x xs ih =>
    simp only [List.foldr_cons]
    rcases Nat.le_total x (xs.foldr max 1) with hle | hle
    · rw [max_eq_right hle]
      rcases ih with h1 | hmem
      · exact Or.inl h1
      · exact Or.inr (by simp [hmem])
    · rw [max_eq_left hle]
      exact Or.inr (by simp)

theorem mipChain_length_eq (d : Dimensions) (h : dimsWf d) :
    (mipChain d).length = 1 + Nat.log 2 (d.toList.foldr max 1) := by
  induction d using mipChain.induct with
  | case1 d hdone =>
    rw [mipChain]
    simp only [hdone, if_true]
    have hone : d.toList.foldr max 1 = 1 := by
      simp [mipsDone, List.all_eq_true] at hdone
      rcases foldrMax_mem_or_one d.toList with h1 | hmem
      · exact h1
      · have := hdone _ hmem
        have := h _ hmem
        omega
    simp [hone]
  | case2 d hdone ih =>
    have hM : 2 ≤ d.toList.foldr max 1 := by
      simp [mipsDone, List.all_eq_true] at hdone
      rcases hdone with ⟨x, hx, hx2⟩
      have := le_foldrMax d.toList x hx
      omega
    rw [mipChain]
    simp only [hdone, if_false, Bool.false_eq_true, List.length_cons]
    rw [ih (dimsWf_halve d)]
    rw [toList_halve, foldrMax_map_halve]
    have hhalf : halveAxis (d.toList.foldr max 1) = d.toList.foldr max 1 / 2 := by
      simp [halveAxis]; omega
    rw [hhalf, Nat.log_div_base 2 _]
    have hpos : 0 < Nat.log 2 (d.toList.foldr max 1) :=
      Nat.log_pos (by norm_num) hM
    omega

theorem foldrMax_toList_log_le (d : Dimensions) (h : dimsWf d) :
    Nat.log 2 (d.toList.foldr max 1) ≤
      max (Nat.clog 2 d.width) (max (Nat.clog 2 d.height) (Nat.clog 2 d.depth)) := by
  have key : ∀ a b : Nat, Nat.log 2 (max a b) ≤ max (Nat.clog 2 a) (Nat.clog 2 b) := by
    intro a b
    rcases Nat.le_total a b with hle | hle
    · rw [max_eq_right hle]
      exact le_trans (Nat.log_le_clog 2 b) (le_max_right _ _)
    · rw [max_eq_left hle]
      exact le_trans (Nat.log_le_clog 2 a) (le_max_left _ _)
  cases d with
  | d1 w =>
    have hw : 1 ≤ w := by simpa [dimsWf, Dimensions.toList] using h
    have e1 : max w 1 = w := by omega
    simp only [List.foldr_cons, List.foldr_nil, e1, Dimensions.width,
      Dimensions.height, Dimensions.depth, Dimensions.toList,
      Nat.clog_one_right]
    exact le_trans (Nat.log_le_clog 2 w) (le_max_left _ _)
  | d2 w h' =>
    have hw : 1 ≤ w ∧ 1 ≤ h' := by simpa [dimsWf, Dimensions.toList] using h
    have e1 : max h' 1 = h' := by omega
    simp only [List.foldr_cons, List.foldr_nil, e1, Dimensions.width,
      Dimensions.height, Dimensions.depth, Dimensions.toList,
      Nat.clog_one_right]
    exact le_trans (key w h')
      (max_le_max (le_refl _) (le_max_left _ _))
  | d3 w h' dep =>
    have hw : 1 ≤ w ∧ 1 ≤ h' ∧ 1 ≤ dep := by
      simpa [dimsWf, Dimensions.toList] using h
    have e1 : max dep 1 = dep := by omega
    simp only [List.foldr_cons, List.foldr_nil, e1, Dimensions.width,
      Dimensions.height, Dimensions.depth, Dimensions.toList]
    rcases Nat.le_total h' dep with h2 | h2
    · rw [max_eq_right h2]
      rcases Nat.le_total w dep with h3 | h3
      · rw [max_eq_right h3]
        exact le_trans (Nat.log_le_clog 2 dep)
          (le_trans (le_max_right _ _) (le_max_right _ _))
      · rw [max_eq_left h3]
        exact le_trans (Nat.log_le_clog 2 w) (le_max_left _ _)
    · rw [max_eq_left h2]
      rcases Nat.le_total w h' with h3 | h3
      · rw [max_eq_right h3]
        exact le_trans (Nat.log_le_clog 2 h')
          (le_trans (le_max_left _ _) (le_max_right _ _))
      · rw [max_eq_left h3]
        exact le_trans (Nat.log_le_clog 2 w) (le_max_left _ _)

/-- C8: for every (positive-axis) dimension value, `mips()` yields a finite
sequence that starts at `self`, in which each element is the elementwise
halving (floor, never below 1) of the previous one, whose last element has
every axis equal to 1, along which the axis product strictly decreases, and
whose length is at most `1 + max(⌈log2 w⌉, ⌈log2 h⌉, ⌈log2 d⌉)`. -/
theorem c8_mips_sequence (d : Dimensions) (h : dimsWf d) :
    (mipChain d).head? = some d
    ∧ (mipChain d).Chain' (fun a b => b = halve a)
    ∧ (∀ t, (mipChain d).getLast? = some t → ∀ x ∈ t.toList, x = 1)
    ∧ (mipChain d).Chain' (fun a b => b.product < a.product)
    ∧ (mipChain d).length ≤
        1 + max (Nat.clog 2 d.width)
          (max (Nat.clog 2 d.height) (Nat.clog 2 d.depth)) := by
  refine ⟨mipChain_head d, mipChain_chain'_halve d, mipChain_getLast_ones d h,
    mipChain_chain'_product d h, ?_⟩
  rw [mipChain_length_eq d h]
  have := foldrMax_toList_log_le d h
  omega

theorem c8_mips_sequence_witness :
    dimsWf (Dimensions.d3 5 2 1)
    ∧ ((mipChain (Dimensions.d3 5 2 1)).head? = some (Dimensions.d3 5 2 1)
      ∧ (mipChain (Dimensions.d3 5 2 1)).Chain' (fun a b => b = halve a)
      ∧ (∀ t, (mipChain (Dimensions.d3 5 2 1)).getLast? = some t →
          ∀ x ∈ t.toList, x = 1)
      ∧ (mipChain (Dimensions.d3 5 2 1)).Chain'
          (fun a b => b.product < a.product)
      ∧ (mipChain (Dimensions.d3 5 2 1)).length ≤
          1 + max (Nat.clog 2 (Dimensions.d3 5 2 1).width)
            (max (Nat.clog 2 (Dimensions.d3 5 2 1).height)
              (Nat.clog 2 (Dimensions.d3 5 2 1).depth))) :=
  ⟨by decide, c8_mips_sequence (Dimensions.d3 5 2 1) (by decide)⟩

/-- C2 (counterexample): the stated round trip fails on
`Uncompressed { bit_count: 8, color: None, alpha: Opaque }` — the encoder
multiplies the bit count by eight, so decoding returns bit count 64. -/
theorem c2_roundtrip_counterexample :
    pixelFormatOfIntermediate
        (intermediateOfPixelFormat (.Uncompressed 8 .None .Opaque))
      ≠ .Uncompressed 8 .None .Opaque := by decide

/-- C2 (amended): encoding a `PixelFormat` and decoding the record is the
identity exactly on `FourCC` values and on `Uncompressed` values whose bit
count is 0 (the encoder stores `bit_count * 8`), whose color format is not
sRGB-tagged RGB (decoding always produces `srgb = false`), and whose alpha
format is `Opaque` or `Custom` (the `Straight` and `Premultiplied` masks
decode as `Custom`). -/
theorem c2_roundtrip_amended (pf : PixelFormat) :
    pixelFormatOfIntermediate (intermediateOfPixelFormat pf) = pf ↔
      (match pf with
       | .FourCC _ => True
       | .Uncompressed bitCount colorFormat alphaFormat =>
         bitCount = 0
         ∧ (match colorFormat with
            | .RGB _ _ _ srgb => srgb = false
            | _ => True)
         ∧ (match alphaFormat with
            | .Straight _ => False
            | .Premultiplied _ => False
            | _ => True)) := by
  cases pf with
  | FourCC cc =>
    simp [pixelFormatOfIntermediate, intermediateOfPixelFormat,
      PixelFormatFlags.empty, PixelFormatFlags.union]
  | Uncompressed bc c a =>
    cases c <;> cases a <;>
      simp [pixelFormatOfIntermediate, intermediateOfPixelFormat,
        PixelFormatFlags.empty, PixelFormatFlags.union, FourCC.default,
        and_comm, and_assoc] <;>
      omega

/-- C5: the FourCC tags `DXT1`, `DXT3`, `DXT5`, `BC4U`, `BC4S`, `ATI2`,
`BC5U` and `BC5S` translate to the corresponding block-compressed formats;
the `DX10` tag and every unknown tag fail with a `Format` error; an
uncompressed pixel format with byte-aligned bit count translates to
`Format::Uncompressed` with `pitch = bit_count / 8`, and a non-byte-aligned
bit count fails with a `Format` error. -/
theorem c5_pixel_format_to_format :
    pixelFormatToFormat (.FourCC fourCCDXT1) = .ok (.BC1 false)
    ∧ pixelFormatToFormat (.FourCC fourCCDXT3) = .ok (.BC2 false)
    ∧ pixelFormatToFormat (.FourCC fourCCDXT5) = .ok (.BC3 false)
    ∧ pixelFormatToFormat (.FourCC fourCCBC4U) = .ok (.BC4 false)
    ∧ pixelFormatToFormat (.FourCC fourCCBC4S) = .ok (.BC4 true)
    ∧ pixelFormatToFormat (.FourCC fourCCATI2) = .ok (.BC5 false)
    ∧ pixelFormatToFormat (.FourCC fourCCBC5U) = .ok (.BC5 false)
    ∧ pixelFormatToFormat (.FourCC fourCCBC5S) = .ok (.BC5 true)
    ∧ (∃ msg, pixelFormatToFormat (.FourCC fourCCDX10) = .error (.Format msg))
    ∧ (∀ cc : FourCC,
        cc ∉ [fourCCDX10, fourCCDXT1, fourCCDXT3, fourCCDXT5, fourCCBC4U,
          fourCCBC4S, fourCCATI2, fourCCBC5U, fourCCBC5S] →
        ∃ msg, pixelFormatToFormat (.FourCC cc) = .error (.Format msg))
    ∧ (∀ bitCount colorFormat alphaFormat, bitCount % 8 = 0 →
        pixelFormatToFormat (.Uncompressed bitCount colorFormat alphaFormat)
          = .ok (.Uncompressed (bitCount / 8) colorFormat alphaFormat))
    ∧ (∀ bitCount colorFormat alphaFormat, bitCount % 8 ≠ 0 →
        ∃ msg,
          pixelFormatToFormat (.Uncompressed bitCount colorFormat alphaFormat)
            = .error (.Format msg)) := by
  refine ⟨rfl, rfl, rfl, rfl, rfl, rfl, rfl, rfl, ⟨_, rfl⟩, ?_, ?_, ?_⟩
  · intro cc hcc
    simp only [List.mem_cons, List.not_mem_nil, or_false, not_or] at hcc
    obtain ⟨h1, h2, h3, h4, h5, h6, h7, h8, h9⟩ := hcc
    have hb : ¬ ((cc = fourCCATI2 || cc = fourCCBC5U) = true) := by
      simp only [Bool.or_eq_true, decide_eq_true_eq, not_or]
      exact ⟨h7, h8⟩
    refine ⟨"Unknown FourCC code", ?_⟩
    simp only [pixelFormatToFormat, if_neg h1, if_neg h2, if_neg h3,
      if_neg h4, if_neg h5, if_neg h6, if_neg hb, if_neg h9]
  · intro bitCount colorFormat alphaFormat hmod
    simp [pixelFormatToFormat, hmod]
  · intro bitCount colorFormat alphaFormat hmod
    refine ⟨s!"BitCount {bitCount} is not divisible by 8", ?_⟩
    simp [pixelFormatToFormat, hmod]

theorem c5_pixel_format_to_format_witness :
    ((⟨0x41, 0x42, 0x43, 0x44⟩ : FourCC) ∉
        [fourCCDX10, fourCCDXT1, fourCCDXT3, fourCCDXT5, fourCCBC4U,
          fourCCBC4S, fourCCATI2, fourCCBC5U, fourCCBC5S]
      ∧ (∃ msg, pixelFormatToFormat (.FourCC ⟨0x41, 0x42, 0x43, 0x44⟩)
          = .error (.Format msg)))
    ∧ ((24 : Nat) % 8 = 0
      ∧ pixelFormatToFormat (.Uncompressed 24 .None .Opaque)
          = .ok (.Uncompressed 3 .None .Opaque))
    ∧ ((7 : Nat) % 8 ≠ 0
      ∧ ∃ msg, pixelFormatToFormat (.Uncompressed 7 .None .Opaque)
          = .error (.Format msg)) :=
  ⟨⟨by decide,
      c5_pixel_format_to_format.2.2.2.2.2.2.2.2.2.1 _ (by decide)⟩,
    ⟨by decide,
      c5_pixel_format_to_format.2.2.2.2.2.2.2.2.2.2.1 24 .None .Opaque
        (by decide)⟩,
    ⟨by decide,
      c5_pixel_format_to_format.2.2.2.2.2.2.2.2.2.2.2 7 .None .Opaque
        (by decide)⟩⟩

/-- C10: every value of the `DXGIFormat` enumeration fails to convert to a
`Format`, with a `Format` error stating that DX10 header formats are not
supported; no DXGI code yields a usable `Format` through this
conversion. -/
theorem c10_dxgi_try_into_format (f : DXGIFormat) :
    dxgiTryIntoFormat f =
      .error (.Format "DX10 header formats are not currently supported") := rfl

theorem c6_size_for_witness :
    dimsWf (Dimensions.d2 16 16) ∧
      sizeFor (.BC1 false) (.d2 16 16) =
        8 * ((Dimensions.d2 16 16).width ⌈/⌉ 4) *
          ((Dimensions.d2 16 16).height ⌈/⌉ 4) * (Dimensions.d2 16 16).depth :=
  ⟨by decide, c6_size_for (.BC1 false) (.d2 16 16) (by decide)⟩

theorem tryFromList_one (w : Nat) (d : Dimensions)
    (hd : tryFromList [w] = .ok d) : d = .d1 w ∧ 1 ≤ w := by
  by_cases hw : w = 0 <;>
    simp [tryFromList, dimensionNames, List.findSome?, hw] at hd
  exact ⟨hd.symm, by omega⟩

theorem tryFromList_two (w h : Nat) (d : Dimensions)
    (hd : tryFromList [w, h] = .ok d) : d = .d2 w h ∧ 1 ≤ w ∧ 1 ≤ h := by
  by_cases hw : w = 0 <;> by_cases hh : h = 0 <;>
    simp [tryFromList, dimensionNames, List.findSome?, hw, hh] at hd
  exact ⟨hd.symm, by omega, by omega⟩

theorem tryFromList_three (w h dep : Nat) (d : Dimensions)
    (hd : tryFromList [w, h, dep] = .ok d) :
    d = .d3 w h dep ∧ 1 ≤ w ∧ 1 ≤ h ∧ 1 ≤ dep := by
  by_cases hw : w = 0 <;> by_cases hh : h = 0 <;> by_cases hdep : dep = 0 <;>
    simp [tryFromList, dimensionNames, List.findSome?, hw, hh, hdep] at hd
  exact ⟨hd.symm, by omega, by omega, by omega⟩

theorem ddsParse_fields (raw : DDSHeaderIntermediate) (h : DDSHeader)
    (hparse : ddsParse raw = .ok h) :
    (ddsDimensions h).width = raw.width
    ∧ (raw.dx10Header = none → (ddsDimensions h).height = raw.height)
    ∧ (raw.flags.mipmapCount = true → ddsMips h = some raw.mipmapCount)
    ∧ (raw.dx10Header = none → raw.flags.depth = true →
        ddsDimensions h = .d3 raw.width raw.height raw.depth) := by
  cases hdx : raw.dx10Header with
  | none =>
    by_cases hdpt : raw.flags.depth = true
    · cases htl : tryFromList [raw.width, raw.height, raw.depth] with
      | error e => simp [ddsParse, hdx, hdpt, htl, Except.mapError] at hparse
      | ok dims =>
        obtain ⟨rfl, -⟩ := tryFromList_three _ _ _ _ htl
        simp [ddsParse, hdx, hdpt, htl, Except.mapError] at hparse
        subst hparse
        by_cases hflag : raw.flags.mipmapCount = true <;>
          simp [ddsDimensions, ddsMips, Dimensions.width, Dimensions.height,
            hflag]
    · cases htl : tryFromList [raw.width, raw.height] with
      | error e => simp [ddsParse, hdx, hdpt, htl, Except.mapError] at hparse
      | ok dims =>
        obtain ⟨rfl, -⟩ := tryFromList_two _ _ _ htl
        simp [ddsParse, hdx, hdpt, htl, Except.mapError] at hparse
        subst hparse
        by_cases hflag : raw.flags.mipmapCount = true <;>
          simp [ddsDimensions, ddsMips, Dimensions.width, Dimensions.height,
            hflag, hdpt]
  | some dx10 =>
    cases hdim : dx10.dimensionality with
    | Texture1D =>
      cases htl : tryFromList [raw.width] with
      | error e =>
        simp [ddsParse, hdx, asDimensions, hdim, htl, Except.mapError]
          at hparse
      | ok dims =>
        obtain ⟨rfl, -⟩ := tryFromList_one _ _ htl
        simp [ddsParse, hdx, asDimensions, hdim, htl, Except.mapError]
          at hparse
        subst hparse
        by_cases hflag : raw.flags.mipmapCount = true <;>
          simp [ddsDimensions, ddsMips, Dimensions.width, hflag, hdx]
    | Texture2D =>
      cases htl : tryFromList [raw.width, raw.height] with
      | error e =>
        simp [ddsParse, hdx, asDimensions, hdim, htl, Except.mapError]
          at hparse
      | ok dims =>
        obtain ⟨rfl, -⟩ := tryFromList_two _ _ _ htl
        simp [ddsParse, hdx, asDimensions, hdim, htl, Except.mapError]
          at hparse
        subst hparse
        by_cases hflag : raw.flags.mipmapCount = true <;>
          simp [ddsDimensions, ddsMips, Dimensions.width, hflag, hdx]
    | Texture3D =>
      cases htl : tryFromList [raw.width, raw.height, raw.depth] with
      | error e =>
        simp [ddsParse, hdx, asDimensions, hdim, htl, Except.mapError]
          at hparse
      | ok dims =>
        obtain ⟨rfl, -⟩ := tryFromList_three _ _ _ _ htl
        simp [ddsParse, hdx, asDimensions, hdim, htl, Except.mapError]
          at hparse
        subst hparse
        by_cases hflag : raw.flags.mipmapCount = true <;>
          simp [ddsDimensions, ddsMips, Dimensions.width, hflag, hdx]

theorem ddsEncode_fields (h : DDSHeader) (i2 : DDSHeaderIntermediate)
    (henc : ddsEncode h = .ok i2) :
    i2.width = (ddsDimensions h).width
    ∧ i2.height = (ddsDimensions h).height
    ∧ i2.mipmapCount = (ddsMips h).getD 0
    ∧ i2.depth =
        (match ddsDimensions h with
         | .d3 _ _ dep => dep
         | _ => 0) := by
  cases h with
  | Legacy dims mips faces fmt =>
    cases hfmt : pixelFormatToFormat fmt with
    | ok f =>
      cases f <;> cases faces <;> cases mips <;>
        simp [ddsEncode, ddsFormat, hfmt] at henc <;>
        (obtain ⟨rfl⟩ := henc.symm) <;>
        simp [ddsDimensions, ddsMips]
    | error e =>
      cases e <;> cases faces <;> cases mips <;>
        simp [ddsEncode, ddsFormat, hfmt] at henc <;>
        (obtain ⟨rfl⟩ := henc.symm) <;>
        simp [ddsDimensions, ddsMips]
  | DX10 dims mips layers isCubemap dxgiFormat alphaMode =>
    cases mips <;>
      simp [ddsEncode, ddsFormat, tryIntoFormat, dxgiTryIntoFormat] at henc <;>
      (obtain ⟨rfl⟩ := henc.symm) <;>
      simp [ddsDimensions, ddsMips]

/-- C3 (counterexample): the record `c3Input` has the `MipmapCount` flag
set and `mipmap_count = 0`; it parses successfully, and the parsed header's
`mips()` accessor returns `Some 0`, not `None`. -/
theorem c3_zero_mip_count_counterexample :
    c3Input.flags.mipmapCount = true
    ∧ c3Input.mipmapCount = 0
    ∧ (ddsParse c3Input).toOption.map ddsMips = some (some 0)
    ∧ (some 0 : Option Nat) ≠ none :=
  ⟨rfl, rfl, rfl, by decide⟩

/-- C3 (amended): for every on-disk record whose `MipmapCount` flag is set
and whose `mipmap_count` field is zero, a successful parse yields a header
whose `mips()` accessor returns `Some 0` (a zero-length mip chain), not
`None`; the parser maps the flag-set/zero-count corner to `Some 0`. -/
theorem c3_zero_mip_count_amended (raw : DDSHeaderIntermediate)
    (h : DDSHeader) (hparse : ddsParse raw = .ok h)
    (hflag : raw.flags.mipmapCount = true) (hcount : raw.mipmapCount = 0) :
    ddsMips h = some 0 := by
  have := (ddsParse_fields raw h hparse).2.2.1 hflag
  rw [this, hcount]

theorem c3_zero_mip_count_amended_witness :
    ddsMips (.Legacy (.d2 4 4) (some 0) none (.FourCC fourCCDXT1))
      = some 0 :=
  c3_zero_mip_count_amended c3Input
    (.Legacy (.d2 4 4) (some 0) none (.FourCC fourCCDXT1)) rfl rfl rfl

/-- C4 (counterexample): the record `c4Input` parses successfully, but
re-encoding the parsed header yields `pitch_or_linear_size = 8` (recomputed
from the DXT1 format) where the input had `0`, so the bytes 4..28 of the
claimed round trip differ. -/
theorem c4_roundtrip_counterexample :
    ((ddsParse c4Input).bind ddsEncode).toOption.map
        (fun i => i.pitchOrLinearSize) = some 8
    ∧ c4Input.pitchOrLinearSize = 0
    ∧ (8 : Nat) ≠ 0 :=
  ⟨by rfl, rfl, by decide⟩

/-- C4 (amended): re-encoding a successfully parsed header reproduces the
input's `width` always, its `height` for legacy (no DX10 sub-header)
records, its `mipmap_count` whenever the `MipmapCount` flag was set, and
its `depth` for legacy records with the `Depth` flag set; the remaining
claimed fields (`flags`, `pitch_or_linear_size`, the pixel-format record
and the caps) are recomputed from the normalized header and need not equal
the input. -/
theorem c4_roundtrip_amended (raw : DDSHeaderIntermediate) (h : DDSHeader)
    (i2 : DDSHeaderIntermediate) (hparse : ddsParse raw = .ok h)
    (henc : ddsEncode h = .ok i2) :
    i2.width = raw.width
    ∧ (raw.dx10Header = none → i2.height = raw.height)
    ∧ (raw.flags.mipmapCount = true → i2.mipmapCount = raw.mipmapCount)
    ∧ (raw.dx10Header = none → raw.flags.depth = true →
        i2.depth = raw.depth) := by
  obtain ⟨hw, hh, hm, hd⟩ := ddsParse_fields raw h hparse
  obtain ⟨ew, eh, em, ed⟩ := ddsEncode_fields h i2 henc
  refine ⟨by rw [ew, hw], fun hdx => by rw [eh, hh hdx], fun hflag => ?_,
    fun hdx hdpt => ?_⟩
  · rw [em, hm hflag]; rfl
  · rw [ed, hd hdx hdpt]

theorem c4_roundtrip_amended_witness :
    c4Reencoded.width = c4Input.width
    ∧ (c4Input.dx10Header = none → c4Reencoded.height = c4Input.height)
    ∧ (c4Input.flags.mipmapCount = true →
        c4Reencoded.mipmapCount = c4Input.mipmapCount)
    ∧ (c4Input.dx10Header = none → c4Input.flags.depth = true →
        c4Reencoded.depth = c4Input.depth) :=
  c4_roundtrip_amended c4Input c4Header c4Reencoded (by rfl) (by rfl)

theorem formatToPixelFormat_ok (f : Format) :
    ∃ pf, formatToPixelFormat f = .ok pf := by
  cases f with
  | BC4 signed => cases signed <;> exact ⟨_, rfl⟩
  | BC5 signed => cases signed <;> exact ⟨_, rfl⟩
  | _ => exact ⟨_, rfl⟩

/-- C7: building a DDS header from a texture obeys the mode dispatch — the
legacy attempt fails (with a `Capability` error) exactly when the texture
has array layers and otherwise yields a `Legacy` header (the
format-to-pixel-format conversion always succeeds); in `PreferLegacy` mode
a legacy attempt failing with a `Capability` or `Format` error falls
through to the DX10 attempt while any other legacy error is returned; in
`ForceLegacy` mode any legacy error is returned; in `ForceDX10` mode the
result is the DX10 attempt alone, whatever the legacy attempt would do.
The statement quantifies over the absent `try_from_format` translation
(`tff`). -/
theorem c7_for_texture_mode_dispatch (tff : TryFromFormat)
    (texture : Texture) :
    ((∃ msg, forTextureLegacy texture = .error (.Capability msg)) ↔
        texture.layers.isSome = true)
    ∧ (texture.layers = none →
        ∃ pf, formatToPixelFormat texture.format = .ok pf
          ∧ forTextureLegacy texture =
              .ok (.Legacy texture.dimensions texture.mips texture.faces pf))
    ∧ (∀ e, forTextureLegacy texture = .error e →
        (match e with
         | .Capability _ => True
         | .Format _ => True
         | _ => False) →
        forTextureArgs tff texture .PreferLegacy = forTextureDX10 tff texture)
    ∧ (∀ e, forTextureLegacy texture = .error e →
        (match e with
         | .Capability _ => False
         | .Format _ => False
         | _ => True) →
        forTextureArgs tff texture .PreferLegacy = .error e)
    ∧ (∀ e, forTextureLegacy texture = .error e →
        forTextureArgs tff texture .ForceLegacy = .error e)
    ∧ forTextureArgs tff texture .ForceDX10 = forTextureDX10 tff texture := by
  obtain ⟨pf0, hpf0⟩ := formatToPixelFormat_ok texture.format
  refine ⟨⟨fun _ => ?_, fun hl => ⟨"Texture arrays are not supported by legacy DDS headers", ?_⟩⟩,
    fun hl => ⟨pf0, hpf0, ?_⟩, fun e he hm => ?_, fun e he hm => ?_,
    fun e he => ?_, rfl⟩
  · by_cases hl : texture.layers.isSome = true
    · exact hl
    · rename_i hex
      obtain ⟨msg, hmsg⟩ := hex
      rw [forTextureLegacy, if_neg (by simp [hl])] at hmsg
      simp [hpf0] at hmsg
    -- the legacy attempt succeeds when there are no layers
  · simp [forTextureLegacy, hl]
  · have hs : texture.layers.isSome = false := by simp [hl]
    simp [forTextureLegacy, hs, hpf0]
  · cases e <;> simp at hm <;>
      simp [forTextureArgs, he]
  · cases e <;> simp at hm <;>
      simp [forTextureArgs, he]
  · simp [forTextureArgs, he]

theorem c7_for_texture_mode_dispatch_witness :
    (forTextureArgs c7Tff c7ArrayTexture .PreferLegacy
        = forTextureDX10 c7Tff c7ArrayTexture)
    ∧ (forTextureArgs c7Tff c7ArrayTexture .ForceLegacy
        = .error
            (.Capability "Texture arrays are not supported by legacy DDS headers")) :=
  ⟨(c7_for_texture_mode_dispatch c7Tff c7ArrayTexture).2.2.1
      (.Capability "Texture arrays are not supported by legacy DDS headers")
      (by rfl) trivial,
    (c7_for_texture_mode_dispatch c7Tff c7ArrayTexture).2.2.2.2.1
      (.Capability "Texture arrays are not supported by legacy DDS headers")
      (by rfl)⟩

namespace TextureShapeNode

variable {S : Type} [Dimensioned S]

theorem getEach_cons {c : TextureShapeNode S} {rest : List (TextureShapeNode S)}
    {i : TextureIndex} {rs : List (TextureShapeNode S)}
    (h : getEach (c :: rest) i = some rs) :
    ∃ r rs', rs = r :: rs' ∧ get c i = some r ∧ getEach rest i = some rs' := by
  cases hu : get c i with
  | none => simp [getEach, hu] at h
  | some u =>
    cases hus : getEach rest i with
    | none => simp [getEach, hu, hus] at h
    | some us =>
      simp [getEach, hu, hus] at h
      exact ⟨u, us, h.symm, rfl, rfl⟩

theorem getEach_length {cs : List (TextureShapeNode S)} {i : TextureIndex}
    {rs : List (TextureShapeNode S)} (h : getEach cs i = some rs) :
    rs.length = cs.length := by
  induction cs generalizing rs with
  | nil => simp [getEach] at h; simp [h.symm]
  | cons c rest ih =>
    obtain ⟨r, rs', rfl, -, hrest⟩ := getEach_cons h
    simp [ih hrest]

theorem getEach_get? {cs : List (TextureShapeNode S)} {i : TextureIndex}
    {rs : List (TextureShapeNode S)} (h : getEach cs i = some rs) :
    ∀ k c, cs.get? k = some c →
      ∃ r, rs.get? k = some r ∧ get c i = some r := by
  induction cs generalizing rs with
  | nil => intro k c hk; simp at hk
  | cons c0 rest ih =>
    obtain ⟨r, rs', rfl, hr, hrest⟩ := getEach_cons h
    intro k c hk
    cases k with
    | zero => simp at hk; subst hk; exact ⟨r, rfl, hr⟩
    | succ k' =>
      simp only [List.get?_cons_succ] at hk ⊢
      exact ih hrest k' c hk

theorem getEach_mem {cs : List (TextureShapeNode S)} {i : TextureIndex}
    {rs : List (TextureShapeNode S)} (h : getEach cs i = some rs) :
    ∀ r ∈ rs, ∃ c ∈ cs, get c i = some r := by
  induction cs generalizing rs with
  | nil => simp [getEach] at h; subst h; simp
  | cons c0 rest ih =>
    obtain ⟨r0, rs', rfl, hr0, hrest⟩ := getEach_cons h
    intro r hr
    rcases List.mem_cons.1 hr with rfl | hmem
    · exact ⟨c0, by simp, hr0⟩
    · obtain ⟨c, hc, hgc⟩ := ih hrest r hmem
      exact ⟨c, by simp [hc], hgc⟩

theorem getPairs_cons {p : CubeFace × TextureShapeNode S}
    {rest : List (CubeFace × TextureShapeNode S)} {i : TextureIndex}
    {gs : List (CubeFace × TextureShapeNode S)}
    (h : getPairs (p :: rest) i = some gs) :
    ∃ q gs', gs = q :: gs' ∧ q.1 = p.1 ∧ get p.2 i = some q.2
      ∧ getPairs rest i = some gs' := by
  obtain ⟨f, c⟩ := p
  cases hu : get c i with
  | none => simp [getPairs, hu] at h
  | some u =>
    cases hus : getPairs rest i with
    | none => simp [getPairs, hu, hus] at h
    | some us =>
      simp [getPairs, hu, hus] at h
      exact ⟨(f, u), us, h.symm, rfl, rfl, rfl⟩

theorem getPairs_fst {fs : List (CubeFace × TextureShapeNode S)}
    {i : TextureIndex} {gs : List (CubeFace × TextureShapeNode S)}
    (h : getPairs fs i = some gs) : gs.map Prod.fst = fs.map Prod.fst := by
  induction fs generalizing gs with
  | nil => simp [getPairs] at h; simp [h.symm]
  | cons p rest ih =>
    obtain ⟨q, gs', rfl, hq1, -, hrest⟩ := getPairs_cons h
    simp [hq1, ih hrest]

theorem getPairs_mem {fs : List (CubeFace × TextureShapeNode S)}
    {i : TextureIndex} {gs : List (CubeFace × TextureShapeNode S)}
    (h : getPairs fs i = some gs) :
    ∀ q ∈ gs, ∃ p ∈ fs, q.1 = p.1 ∧ get p.2 i = some q.2 := by
  induction fs generalizing gs with
  | nil => simp [getPairs] at h; subst h; simp
  | cons p0 rest ih =>
    obtain ⟨q0, gs', rfl, hq1, hq2, hrest⟩ := getPairs_cons h
    intro q hq
    rcases List.mem_cons.1 hq with rfl | hmem
    · exact ⟨p0, by simp, hq1, hq2⟩
    · obtain ⟨p, hp, h1, h2⟩ := ih hrest q hmem
      exact ⟨p, by simp [hp], h1, h2⟩

theorem lookupFace_mem {f : CubeFace}
    {fs : List (CubeFace × TextureShapeNode S)} {c : TextureShapeNode S}
    (h : lookupFace f fs = some c) : (f, c) ∈ fs := by
  induction fs with
  | nil => simp [lookupFace] at h
  | cons p rest ih =>
    obtain ⟨g, u⟩ := p
    by_cases hg : g = f
    · subst hg
      simp [lookupFace] at h
      simp [h.symm]
    · simp [lookupFace, hg] at h
      exact List.mem_cons_of_mem _ (ih h)

theorem anyPanics_false {cs : List (TextureShapeNode S)} {i : TextureIndex}
    (h : ∀ c ∈ cs, getPanics c i = false) : anyPanics cs i = false := by
  induction cs with
  | nil => rfl
  | cons c rest ih =>
    simp only [anyPanics, Bool.or_eq_false_iff]
    exact ⟨h c (by simp), ih (fun c' hc' => h c' (by simp [hc']))⟩

theorem anyPanicsPairs_false {fs : List (CubeFace × TextureShapeNode S)}
    {i : TextureIndex} (h : ∀ p ∈ fs, getPanics p.2 i = false) :
    anyPanicsPairs fs i = false := by
  induction fs with
  | nil => rfl
  | cons p rest ih =>
    obtain ⟨f, c⟩ := p
    simp only [anyPanicsPairs, Bool.or_eq_false_iff]
    exact ⟨h (f, c) (by simp), ih (fun p' hp' => h p' (by simp [hp']))⟩

theorem map_dims_eq {cs rs : List (TextureShapeNode S)} {i : TextureIndex}
    (h : getEach cs i = some rs)
    (hd : ∀ c ∈ cs, ∀ r, get c i = some r → dims r = dims c) :
    rs.map dims = cs.map dims := by
  apply List.ext_get?
  intro n
  rw [List.get?_map, List.get?_map]
  cases hn : cs.get? n with
  | none =>
    have hlen := getEach_length h
    have hge : cs.length ≤ n := List.get?_eq_none.1 hn
    have : rs.get? n = none := List.get?_eq_none.2 (by omega)
    rw [this]
  | some c =>
    obtain ⟨r, hrn, hgr⟩ := getEach_get? h n c hn
    rw [hrn]
    simp [hd c (List.get?_mem hn) r hgr]

set_option maxHeartbeats 2000000 in
theorem wf_get_main {t : TextureShapeNode S} (hwf : Wf t) :
    ∀ i : TextureIndex,
      getPanics t i = false
      ∧ ∀ u, get t i = some u →
          Wf u
          ∧ mips u = (match i with | .Mip _ => none | _ => mips t)
          ∧ layers u = (match i with | .Layer _ => none | _ => layers t)
          ∧ faces u = (match i with | .Face _ => none | _ => faces t)
          ∧ (match i with
             | .Mip m => (mipChain (dims t)).get? m = some (dims u)
             | _ => dims u = dims t) := by
  induction hwf with
  | Surface s => intro i; exact ⟨rfl, fun u hu => by simp [get] at hu⟩
  | @MipMap ms hne hnomips hlayers hfaces hchain hwfc ih =>
    intro i
    obtain ⟨c0, ms', rfl⟩ := List.exists_cons_of_ne_nil hne
    cases i with
    | Mip m =>
      constructor
      · cases hm : (c0 :: ms').get? m with
        | none => simp only [getPanics]; rw [hm]
        | some single =>
          have hs : mips single = none := hnomips single (List.get?_mem hm)
          simp only [getPanics]; rw [hm]; simp [hs]
      · intro u hu
        have hget : (c0 :: ms').get? m = some u := hu
        have humem : u ∈ c0 :: ms' := List.get?_mem hget
        refine ⟨hwfc u humem, hnomips u humem,
          hlayers u humem c0 (by simp), hfaces u humem c0 (by simp), ?_⟩
        show (mipChain (dims c0)).get? m = some (dims u)
        have hchain2 : (c0 :: ms').map dims = mipChain (dims c0) := hchain
        rw [← hchain2, List.get?_map, hget]
        rfl
    | Layer l =>
      constructor
      · exact anyPanics_false (fun c hc => (ih c hc (.Layer l)).1)
      · intro u hu
        obtain ⟨rs, hrs, rfl⟩ :
            ∃ rs, getEach (c0 :: ms') (.Layer l) = some rs ∧ u = .MipMap rs := by
          cases hge : getEach (c0 :: ms') (.Layer l) with
          | none => simp [get, hge] at hu
          | some rs => simp [get, hge] at hu; exact ⟨rs, rfl, hu.symm⟩
        obtain ⟨r0, rs', rfl, hr0, hrest⟩ := getEach_cons hrs
        have hdr : ∀ c ∈ c0 :: ms', ∀ r, get c (.Layer l) = some r →
            dims r = dims c :=
          fun c hc r hgr => ((ih c hc (.Layer l)).2 r hgr).2.2.2.2
        refine ⟨?_, ?_, ?_, ?_, ?_⟩
        · refine Wf.MipMap (by simp) ?_ ?_ ?_ ?_ ?_
          · intro r hrm
            obtain ⟨c, hc, hgc⟩ := getEach_mem hrs r hrm
            have hmr := ((ih c hc (.Layer l)).2 r hgc).2.1
            rw [hmr]; exact hnomips c hc
          · intro a ha b hb
            obtain ⟨ca, hca, hga⟩ := getEach_mem hrs a ha
            obtain ⟨cb, hcb, hgb⟩ := getEach_mem hrs b hb
            rw [((ih ca hca (.Layer l)).2 a hga).2.2.1,
              ((ih cb hcb (.Layer l)).2 b hgb).2.2.1]
          · intro a ha b hb
            obtain ⟨ca, hca, hga⟩ := getEach_mem hrs a ha
            obtain ⟨cb, hcb, hgb⟩ := getEach_mem hrs b hb
            rw [((ih ca hca (.Layer l)).2 a hga).2.2.2.1,
              ((ih cb hcb (.Layer l)).2 b hgb).2.2.2.1]
            exact hfaces ca hca cb hcb
          · show (r0 :: rs').map dims = mipChain (dims r0)
            rw [map_dims_eq hrs hdr, hdr c0 (by simp) r0 hr0]
            exact hchain
          · intro r hrm
            obtain ⟨c, hc, hgc⟩ := getEach_mem hrs r hrm
            exact ((ih c hc (.Layer l)).2 r hgc).1
        · show some (r0 :: rs').length = some (c0 :: ms').length
          rw [getEach_length hrs]
        · exact ((ih c0 (by simp) (.Layer l)).2 r0 hr0).2.2.1
        · show faces r0 = faces c0
          exact ((ih c0 (by simp) (.Layer l)).2 r0 hr0).2.2.2.1
        · show dims r0 = dims c0
          exact hdr c0 (by simp) r0 hr0
    | Face f =>
      constructor
      · exact anyPanics_false (fun c hc => (ih c hc (.Face f)).1)
      · intro u hu
        obtain ⟨rs, hrs, rfl⟩ :
            ∃ rs, getEach (c0 :: ms') (.Face f) = some rs ∧ u = .MipMap rs := by
          cases hge : getEach (c0 :: ms') (.Face f) with
          | none => simp [get, hge] at hu
          | some rs => simp [get, hge] at hu; exact ⟨rs, rfl, hu.symm⟩
        obtain ⟨r0, rs', rfl, hr0, hrest⟩ := getEach_cons hrs
        have hdr : ∀ c ∈ c0 :: ms', ∀ r, get c (.Face f) = some r →
            dims r = dims c :=
          fun c hc r hgr => ((ih c hc (.Face f)).2 r hgr).2.2.2.2
        refine ⟨?_, ?_, ?_, ?_, ?_⟩
        · refine Wf.MipMap (by simp) ?_ ?_ ?_ ?_ ?_
          · intro r hrm
            obtain ⟨c, hc, hgc⟩ := getEach_mem hrs r hrm
            have hmr := ((ih c hc (.Face f)).2 r hgc).2.1
            rw [hmr]; exact hnomips c hc
          · intro a ha b hb
            obtain ⟨ca, hca, hga⟩ := getEach_mem hrs a ha
            obtain ⟨cb, hcb, hgb⟩ := getEach_mem hrs b hb
            rw [((ih ca hca (.Face f)).2 a hga).2.2.1,
              ((ih cb hcb (.Face f)).2 b hgb).2.2.1]
            exact hlayers ca hca cb hcb
          · intro a ha b hb
            obtain ⟨ca, hca, hga⟩ := getEach_mem hrs a ha
            obtain ⟨cb, hcb, hgb⟩ := getEach_mem hrs b hb
            rw [((ih ca hca (.Face f)).2 a hga).2.2.2.1,
              ((ih cb hcb (.Face f)).2 b hgb).2.2.2.1]
          · show (r0 :: rs').map dims = mipChain (dims r0)
            rw [map_dims_eq hrs hdr, hdr c0 (by simp) r0 hr0]
            exact hchain
          · intro r hrm
            obtain ⟨c, hc, hgc⟩ := getEach_mem hrs r hrm
            exact ((ih c hc (.Face f)).2 r hgc).1
        · show some (r0 :: rs').length = some (c0 :: ms').length
          rw [getEach_length hrs]
        · exact ((ih c0 (by simp) (.Face f)).2 r0 hr0).2.2.1
        · show faces r0 = none
          exact ((ih c0 (by simp) (.Face f)).2 r0 hr0).2.2.2.1
        · show dims r0 = dims c0
          exact hdr c0 (by simp) r0 hr0
  | @CubeMap fs hne hnodup hnofaces hdims hmips hlayers hwfc ih =>
    intro i
    obtain ⟨p0, fs', rfl⟩ := List.exists_cons_of_ne_nil hne
    obtain ⟨f0, c0⟩ := p0
    cases i with
    | Face f =>
      refine ⟨rfl, fun u hu => ?_⟩
      have hl : lookupFace f ((f0, c0) :: fs') = some u := hu
      have hmem : (f, u) ∈ (f0, c0) :: fs' := lookupFace_mem hl
      refine ⟨hwfc (f, u) hmem, ?_, ?_, hnofaces (f, u) hmem, ?_⟩
      · exact hmips (f, u) hmem (f0, c0) (by simp)
      · exact hlayers (f, u) hmem (f0, c0) (by simp)
      · exact hdims (f, u) hmem (f0, c0) (by simp)
    | Mip m =>
      constructor
      · exact anyPanicsPairs_false (fun p hp => (ih p hp (.Mip m)).1)
      · intro u hu
        obtain ⟨gs, hgs, rfl⟩ :
            ∃ gs, getPairs ((f0, c0) :: fs') (.Mip m) = some gs
              ∧ u = .CubeMap gs := by
          cases hge : getPairs ((f0, c0) :: fs') (.Mip m) with
          | none => simp [get, hge] at hu
          | some gs => simp [get, hge] at hu; exact ⟨gs, rfl, hu.symm⟩
        obtain ⟨q0, gs', rfl, hq1, hq2, hrest⟩ := getPairs_cons hgs
        obtain ⟨q0f, q0c⟩ := q0
        refine ⟨?_, ?_, ?_, ?_, ?_⟩
        · refine Wf.CubeMap (by simp) ?_ ?_ ?_ ?_ ?_ ?_
          · rw [getPairs_fst hgs]; exact hnodup
          · intro q hq
            obtain ⟨p, hp, _, hqp2⟩ := getPairs_mem hgs q hq
            rw [((ih p hp (.Mip m)).2 q.2 hqp2).2.2.2.1]
            exact hnofaces p hp
          · intro a ha b hb
            obtain ⟨pa, hpa, _, ha2⟩ := getPairs_mem hgs a ha
            obtain ⟨pb, hpb, _, hb2⟩ := getPairs_mem hgs b hb
            have da : (mipChain (dims pa.2)).get? m = some (dims a.2) :=
              ((ih pa hpa (.Mip m)).2 a.2 ha2).2.2.2.2
            have db : (mipChain (dims pb.2)).get? m = some (dims b.2) :=
              ((ih pb hpb (.Mip m)).2 b.2 hb2).2.2.2.2
            rw [hdims pa hpa pb hpb] at da
            rw [da] at db
            exact Option.some.inj db
          · intro a ha b hb
            obtain ⟨pa, hpa, _, ha2⟩ := getPairs_mem hgs a ha
            obtain ⟨pb, hpb, _, hb2⟩ := getPairs_mem hgs b hb
            rw [((ih pa hpa (.Mip m)).2 a.2 ha2).2.1,
              ((ih pb hpb (.Mip m)).2 b.2 hb2).2.1]
          · intro a ha b hb
            obtain ⟨pa, hpa, _, ha2⟩ := getPairs_mem hgs a ha
            obtain ⟨pb, hpb, _, hb2⟩ := getPairs_mem hgs b hb
            rw [((ih pa hpa (.Mip m)).2 a.2 ha2).2.2.1,
              ((ih pb hpb (.Mip m)).2 b.2 hb2).2.2.1]
            exact hlayers pa hpa pb hpb
          · intro q hq
            obtain ⟨p, hp, _, hqp2⟩ := getPairs_mem hgs q hq
            exact ((ih p hp (.Mip m)).2 q.2 hqp2).1
        · show mips q0c = none
          exact ((ih (f0, c0) (by simp) (.Mip m)).2 q0c hq2).2.1
        · show layers q0c = layers c0
          exact ((ih (f0, c0) (by simp) (.Mip m)).2 q0c hq2).2.2.1
        · show some (((q0f, q0c) :: gs').map Prod.fst)
            = some (((f0, c0) :: fs').map Prod.fst)
          rw [getPairs_fst hgs]
        · show (mipChain (dims c0)).get? m = some (dims q0c)
          exact ((ih (f0, c0) (by simp) (.Mip m)).2 q0c hq2).2.2.2.2
    | Layer l =>
      constructor
      · exact anyPanicsPairs_false (fun p hp => (ih p hp (.Layer l)).1)
      · intro u hu
        obtain ⟨gs, hgs, rfl⟩ :
            ∃ gs, getPairs ((f0, c0) :: fs') (.Layer l) = some gs
              ∧ u = .CubeMap gs := by
          cases hge : getPairs ((f0, c0) :: fs') (.Layer l) with
          | none => simp [get, hge] at hu
          | some gs => simp [get, hge] at hu; exact ⟨gs, rfl, hu.symm⟩
        obtain ⟨q0, gs', rfl, hq1, hq2, hrest⟩ := getPairs_cons hgs
        obtain ⟨q0f, q0c⟩ := q0
        refine ⟨?_, ?_, ?_, ?_, ?_⟩
        · refine Wf.CubeMap (by simp) ?_ ?_ ?_ ?_ ?_ ?_
          · rw [getPairs_fst hgs]; exact hnodup
          · intro q hq
            obtain ⟨p, hp, _, hqp2⟩ := getPairs_mem hgs q hq
            rw [((ih p hp (.Layer l)).2 q.2 hqp2).2.2.2.1]
            exact hnofaces p hp
          · intro a ha b hb
            obtain ⟨pa, hpa, _, ha2⟩ := getPairs_mem hgs a ha
            obtain ⟨pb, hpb, _, hb2⟩ := getPairs_mem hgs b hb
            rw [((ih pa hpa (.Layer l)).2 a.2 ha2).2.2.2.2,
              ((ih pb hpb (.Layer l)).2 b.2 hb2).2.2.2.2]
            exact hdims pa hpa pb hpb
          · intro a ha b hb
            obtain ⟨pa, hpa, _, ha2⟩ := getPairs_mem hgs a ha
            obtain ⟨pb, hpb, _, hb2⟩ := getPairs_mem hgs b hb
            rw [((ih pa hpa (.Layer l)).2 a.2 ha2).2.1,
              ((ih pb hpb (.Layer l)).2 b.2 hb2).2.1]
            exact hmips pa hpa pb hpb
          · intro a ha b hb
            obtain ⟨pa, hpa, _, ha2⟩ := getPairs_mem hgs a ha
            obtain ⟨pb, hpb, _, hb2⟩ := getPairs_mem hgs b hb
            rw [((ih pa hpa (.Layer l)).2 a.2 ha2).2.2.1,
              ((ih pb hpb (.Layer l)).2 b.2 hb2).2.2.1]
          · intro q hq
            obtain ⟨p, hp, _, hqp2⟩ := getPairs_mem hgs q hq
            exact ((ih p hp (.Layer l)).2 q.2 hqp2).1
        · show mips q0c = mips c0
          exact ((ih (f0, c0) (by simp) (.Layer l)).2 q0c hq2).2.1
        · show layers q0c = none
          exact ((ih (f0, c0) (by simp) (.Layer l)).2 q0c hq2).2.2.1
        · show some (((q0f, q0c) :: gs').map Prod.fst)
            = some (((f0, c0) :: fs').map Prod.fst)
          rw [getPairs_fst hgs]
        · show dims q0c = dims c0
          exact ((ih (f0, c0) (by simp) (.Layer l)).2 q0c hq2).2.2.2.2
  | @Array ls hne hnolayers hdims hmips hfaces hwfc ih =>
    intro i
    obtain ⟨c0, ls', rfl⟩ := List.exists_cons_of_ne_nil hne
    cases i with
    | Layer l =>
      constructor
      · cases hm : (c0 :: ls').get? l with
        | none => simp only [getPanics]; rw [hm]
        | some single =>
          have hs : layers single = none := hnolayers single (List.get?_mem hm)
          simp only [getPanics]; rw [hm]; simp [hs]
      · intro u hu
        have hget : (c0 :: ls').get? l = some u := hu
        have humem : u ∈ c0 :: ls' := List.get?_mem hget
        refine ⟨hwfc u humem, hmips u humem c0 (by simp),
          hnolayers u humem, hfaces u humem c0 (by simp),
          hdims u humem c0 (by simp)⟩
    | Mip m =>
      constructor
      · exact anyPanics_false (fun c hc => (ih c hc (.Mip m)).1)
      · intro u hu
        obtain ⟨rs, hrs, rfl⟩ :
            ∃ rs, getEach (c0 :: ls') (.Mip m) = some rs ∧ u = .Array rs := by
          cases hge : getEach (c0 :: ls') (.Mip m) with
          | none => simp [get, hge] at hu
          | some rs => simp [get, hge] at hu; exact ⟨rs, rfl, hu.symm⟩
        obtain ⟨r0, rs', rfl, hr0, hrest⟩ := getEach_cons hrs
        refine ⟨?_, ?_, ?_, ?_, ?_⟩
        · refine Wf.Array (by simp) ?_ ?_ ?_ ?_ ?_
          · intro r hrm
            obtain ⟨c, hc, hgc⟩ := getEach_mem hrs r hrm
            have hlr : layers r = layers c :=
              ((ih c hc (.Mip m)).2 r hgc).2.2.1
            rw [hlr]; exact hnolayers c hc
          · intro a ha b hb
            obtain ⟨ca, hca, hga⟩ := getEach_mem hrs a ha
            obtain ⟨cb, hcb, hgb⟩ := getEach_mem hrs b hb
            have da : (mipChain (dims ca)).get? m = some (dims a) :=
              ((ih ca hca (.Mip m)).2 a hga).2.2.2.2
            have db : (mipChain (dims cb)).get? m = some (dims b) :=
              ((ih cb hcb (.Mip m)).2 b hgb).2.2.2.2
            rw [hdims ca hca cb hcb] at da
            rw [da] at db
            exact Option.some.inj db
          · intro a ha b hb
            obtain ⟨ca, hca, hga⟩ := getEach_mem hrs a ha
            obtain ⟨cb, hcb, hgb⟩ := getEach_mem hrs b hb
            rw [((ih ca hca (.Mip m)).2 a hga).2.1,
              ((ih cb hcb (.Mip m)).2 b hgb).2.1]
          · intro a ha b hb
            obtain ⟨ca, hca, hga⟩ := getEach_mem hrs a ha
            obtain ⟨cb, hcb, hgb⟩ := getEach_mem hrs b hb
            rw [((ih ca hca (.Mip m)).2 a hga).2.2.2.1,
              ((ih cb hcb (.Mip m)).2 b hgb).2.2.2.1]
            exact hfaces ca hca cb hcb
          · intro r hrm
            obtain ⟨c, hc, hgc⟩ := getEach_mem hrs r hrm
            exact ((ih c hc (.Mip m)).2 r hgc).1
        · show mips r0 = none
          exact ((ih c0 (by simp) (.Mip m)).2 r0 hr0).2.1
        · show some (r0 :: rs').length = some (c0 :: ls').length
          rw [getEach_length hrs]
        · show faces r0 = faces c0
          exact ((ih c0 (by simp) (.Mip m)).2 r0 hr0).2.2.2.1
        · show (mipChain (dims c0)).get? m = some (dims r0)
          exact ((ih c0 (by simp) (.Mip m)).2 r0 hr0).2.2.2.2
    | Face f =>
      constructor
      · exact anyPanics_false (fun c hc => (ih c hc (.Face f)).1)
      · intro u hu
        obtain ⟨rs, hrs, rfl⟩ :
            ∃ rs, getEach (c0 :: ls') (.Face f) = some rs ∧ u = .Array rs := by
          cases hge : getEach (c0 :: ls') (.Face f) with
          | none => simp [get, hge] at hu
          | some rs => simp [get, hge] at hu; exact ⟨rs, rfl, hu.symm⟩
        obtain ⟨r0, rs', rfl, hr0, hrest⟩ := getEach_cons hrs
        refine ⟨?_, ?_, ?_, ?_, ?_⟩
        · refine Wf.Array (by simp) ?_ ?_ ?_ ?_ ?_
          · intro r hrm
            obtain ⟨c, hc, hgc⟩ := getEach_mem hrs r hrm
            have hlr : layers r = layers c :=
              ((ih c hc (.Face f)).2 r hgc).2.2.1
            rw [hlr]; exact hnolayers c hc
          · intro a ha b hb
            obtain ⟨ca, hca, hga⟩ := getEach_mem hrs a ha
            obtain ⟨cb, hcb, hgb⟩ := getEach_mem hrs b hb
            have da : dims a = dims ca :=
              ((ih ca hca (.Face f)).2 a hga).2.2.2.2
            have db : dims b = dims cb :=
              ((ih cb hcb (.Face f)).2 b hgb).2.2.2.2
            rw [da, db]
            exact hdims ca hca cb hcb
          · intro a ha b hb
            obtain ⟨ca, hca, hga⟩ := getEach_mem hrs a ha
            obtain ⟨cb, hcb, hgb⟩ := getEach_mem hrs b hb
            rw [((ih ca hca (.Face f)).2 a hga).2.1,
              ((ih cb hcb (.Face f)).2 b hgb).2.1]
            exact hmips ca hca cb hcb
          · intro a ha b hb
            obtain ⟨ca, hca, hga⟩ := getEach_mem hrs a ha
            obtain ⟨cb, hcb, hgb⟩ := getEach_mem hrs b hb
            rw [((ih ca hca (.Face f)).2 a hga).2.2.2.1,
              ((ih cb hcb (.Face f)).2 b hgb).2.2.2.1]
          · intro r hrm
            obtain ⟨c, hc, hgc⟩ := getEach_mem hrs r hrm
            exact ((ih c hc (.Face f)).2 r hgc).1
        · show mips r0 = mips c0
          exact ((ih c0 (by simp) (.Face f)).2 r0 hr0).2.1
        · show some (r0 :: rs').length = some (c0 :: ls').length
          rw [getEach_length hrs]
        · show faces r0 = none
          exact ((ih c0 (by simp) (.Face f)).2 r0 hr0).2.2.2.1
        · show dims r0 = dims c0
          exact ((ih c0 (by simp) (.Face f)).2 r0 hr0).2.2.2.2



/-- C9: on every shape tree satisfying the constructor invariants (`Wf`),
slicing never hits a failing internal assertion, and every tree returned by
`get` satisfies the same invariants. -/
theorem c9_get_preserves_invariants {t : TextureShapeNode S} (hwf : Wf t)
    (i : TextureIndex) :
    getPanics t i = false ∧ ∀ u, get t i = some u → Wf u :=
  ⟨(wf_get_main hwf i).1, fun u hu => ((wf_get_main hwf i).2 u hu).1⟩

theorem c9_get_preserves_invariants_witness :
    getPanics c9Tree (.Face .PositiveX) = false
    ∧ ∀ u, get c9Tree (.Face .PositiveX) = some u → Wf u :=
  c9_get_preserves_invariants
    (by
      show Wf (TextureShapeNode.CubeMap
        [(CubeFace.PositiveX, TextureShapeNode.Surface (Dimensions.d2 4 4)),
          (CubeFace.NegativeX, TextureShapeNode.Surface (Dimensions.d2 4 4))])
      refine Wf.CubeMap (by simp) (by decide) (by decide) (by decide)
        (by decide) (by decide) ?_
      intro p hp
      simp only [List.mem_cons, List.not_mem_nil, or_false] at hp
      rcases hp with rfl | rfl
      · exact Wf.Surface _
      · exact Wf.Surface _)
    (.Face .PositiveX)

theorem mipChain_d2_2_2 :
    mipChain (.d2 2 2) = [.d2 2 2, .d2 1 1] := by
  rw [mipChain, if_neg (by decide)]
  have h1 : halve (.d2 2 2) = .d2 1 1 := rfl
  rw [h1, mipChain, if_pos (by decide)]

theorem mipChain_d2_4_4 :
    mipChain (.d2 4 4) = [.d2 4 4, .d2 2 2, .d2 1 1] := by
  rw [mipChain, if_neg (by decide)]
  have h1 : halve (.d2 4 4) = .d2 2 2 := rfl
  rw [h1, mipChain_d2_2_2]

/-- C1 (counterexample): the two-surface list `c1Children` (4×4 then 2×2)
is non-empty, no child has a mipmap, the children agree on layer count and
face set, and their dimensions equal the first 2 elements of
`children[0].dimensions().mips()`; yet `try_from_mips` fails with
`InvalidMipChain`, because the source compares against the *entire* mip
chain (`Iterator::eq`), which continues to 1×1. -/
theorem c1_try_from_mips_counterexample :
    c1Children.map dims
        = (mipChain (dims (.Surface (.d2 4 4) : TextureShapeNode Dimensions))).take 2
    ∧ (∀ c ∈ c1Children, mips c = none)
    ∧ allEqual (c1Children.map layers) = true
    ∧ allEqual (c1Children.map faces) = true
    ∧ tryFromMips c1Children = .error .InvalidMipChain := by
  have hd : dims (.Surface (.d2 4 4) : TextureShapeNode Dimensions)
      = .d2 4 4 := rfl
  refine ⟨?_, by decide, by decide, by decide, ?_⟩
  · rw [hd, mipChain_d2_4_4]
    decide
  · have hne : c1Children.map dims
        ≠ mipChain (dims (.Surface (.d2 4 4) : TextureShapeNode Dimensions)) := by
      rw [hd, mipChain_d2_4_4]
      decide
    show tryFromMips
        [TextureShapeNode.Surface (Dimensions.d2 4 4),
          TextureShapeNode.Surface (Dimensions.d2 2 2)]
      = .error .InvalidMipChain
    simp only [tryFromMips]
    rw [if_pos (by exact hne)]

/-- C1 (amended): for a non-empty list of well-formed children in which no
child has a mipmap and all children agree on layer count and face set,
`try_from_mips` succeeds and returns a `MipMap` node if and only if the
children's dimensions, in order, equal the *entire* sequence
`children[0].dimensions().mips()` (which always descends to all-ones);
otherwise it fails with `InvalidMipChain`. -/
theorem c1_try_from_mips_amended (c0 : TextureShapeNode S)
    (rest : List (TextureShapeNode S))
    (hwf : ∀ c ∈ c0 :: rest, Wf c)
    (hnomips : ∀ c ∈ c0 :: rest, mips c = none)
    (hlayers : allEqual ((c0 :: rest).map layers) = true)
    (hfaces : allEqual ((c0 :: rest).map faces) = true) :
    (tryFromMips (c0 :: rest) = .ok (.MipMap (c0 :: rest)) ↔
        (c0 :: rest).map dims = mipChain (dims c0))
    ∧ ((c0 :: rest).map dims ≠ mipChain (dims c0) →
        tryFromMips (c0 :: rest) = .error .InvalidMipChain) := by
  have hnest : ((c0 :: rest).any fun c => (mips c).isSome) = false := by
    rw [List.any_eq_false]
    intro c hc
    simp [hnomips c hc]
  by_cases hc : (c0 :: rest).map dims = mipChain (dims c0)
  · have hok : tryFromMips (c0 :: rest) = .ok (.MipMap (c0 :: rest)) := by
      simp only [tryFromMips]
      rw [if_neg (by simp [hc]), if_neg (by simpa using hlayers),
        if_neg (by simpa using hfaces), if_neg (by simpa using hnest)]
    exact ⟨iff_of_true hok hc, fun hcontra => absurd hc hcontra⟩
  · have herr : tryFromMips (c0 :: rest) = .error .InvalidMipChain := by
      simp only [tryFromMips]
      rw [if_pos hc]
    refine ⟨iff_of_false (by rw [herr]; simp) hc, fun _ => herr⟩

theorem c1_try_from_mips_amended_witness :
    (tryFromMips
          [(.Surface (.d2 2 2) : TextureShapeNode Dimensions),
            .Surface (.d2 1 1)]
        = .ok (.MipMap [.Surface (.d2 2 2), .Surface (.d2 1 1)]) ↔
      [(.Surface (.d2 2 2) : TextureShapeNode Dimensions),
          .Surface (.d2 1 1)].map dims
        = mipChain (dims (.Surface (.d2 2 2) : TextureShapeNode Dimensions)))
    ∧ ([(.Surface (.d2 2 2) : TextureShapeNode Dimensions),
          .Surface (.d2 1 1)].map dims
        ≠ mipChain (dims (.Surface (.d2 2 2) : TextureShapeNode Dimensions)) →
        tryFromMips
            [(.Surface (.d2 2 2) : TextureShapeNode Dimensions),
              .Surface (.d2 1 1)]
          = .error .InvalidMipChain) :=
  c1_try_from_mips_amended (TextureShapeNode.Surface (Dimensions.d2 2 2))
    [TextureShapeNode.Surface (Dimensions.d2 1 1)]
    (by
      intro c hc
      simp only [List.mem_cons, List.not_mem_nil, or_false] at hc
      rcases hc with rfl | rfl
      · exact Wf.Surface _
      · exact Wf.Surface _)
    (by decide) (by decide) (by decide)

end TextureShapeNode


end Quicktex
